import Mathlib

set_option maxRecDepth 8192

/-!
Verification of the Teeny-Tiny-style translator (src/lex.py, src/parse.py):
a lexical scanner feeding a recursive-descent parser that emits C text
inline.  The Python code is embedded shallowly:

* characters are `Char`, the source buffer is `List Char`; the cursor is a
  `Nat`; the derived "current character" is `charAt` (the `'\x00'` sentinel
  once the cursor reaches or passes the buffer end, as in `Lexer.nextChar`);
* every Python loop is a structurally recursive function whose extra `Nat`
  argument is an exact upper bound on the number of iterations the loop can
  make (`src.length - pos` for the scanner loops, a window-weighted bound
  for the token-skipping loop), so every definition evaluates by `rfl`;
  where the Python loop would run forever (a `#` comment or a string
  literal that never ends, with no character left in the buffer) the
  embedded function returns the sentinel error `"Nontermination."`, a
  message no real code path produces;
* `sys.exit` aborts become `Except.error` carrying the exact message the
  Python builds (`"Lexing Error. " ++ msg` from `Lexer.abort`,
  `"Error. " ++ msg` from `Parser.abort`);
* the parser's statement-level recursion (`statement` and its three
  `while` statement lists) is fuelled: `none` stands for fuel running out,
  and the fuel-monotonicity lemmas below show the result is independent of
  the fuel once any fuel suffices;
* the emitter and the top-level wiring are not under src/; `emit`,
  `emitLine`, `headerLine` and `translateOut` are modelled from the spec
  (sections 2, 4.2 and 6): two append-only streams, preamble then body,
  rendered by concatenation.

Python's `str.isdigit`/`isalpha`/`isalnum` are modelled by the ASCII
`Char.isDigit`/`Char.isAlpha`/`Char.isAlphanum`; every program this
development evaluates is ASCII, where the two agree.
-/

/-- The token classification tags of `lex.py` (`class TokenType(enum.Enum)`),
in declaration order. -/
inductive TokenType where
  | EOF
  | NEWLINE
  | NUMBER
  | IDENT
  | STRING
  | LABEL
  | GOTO
  | PRINT
  | INPUT
  | LET
  | IF
  | THEN
  | ENDIF
  | WHILE
  | REPEAT
  | ENDWHILE
  | EQ
  | PLUS
  | MINUS
  | ASTERISK
  | SLASH
  | EQEQ
  | NOTEQ
  | LT
  | LTEQ
  | GT
  | GTEQ
deriving DecidableEq, Repr

/-- The numeric value of each enum member of `TokenType` in `lex.py`. -/
def TokenType.value : TokenType → Int
  | .EOF => -1
  | .NEWLINE => 0
  | .NUMBER => 1
  | .IDENT => 2
  | .STRING => 3
  | .LABEL => 101
  | .GOTO => 102
  | .PRINT => 103
  | .INPUT => 104
  | .LET => 105
  | .IF => 106
  | .THEN => 107
  | .ENDIF => 108
  | .WHILE => 109
  | .REPEAT => 110
  | .ENDWHILE => 111
  | .EQ => 201
  | .PLUS => 202
  | .MINUS => 203
  | .ASTERISK => 204
  | .SLASH => 205
  | .EQEQ => 206
  | .NOTEQ => 207
  | .LT => 208
  | .LTEQ => 209
  | .GT => 210
  | .GTEQ => 211

/-- The `.name` of each enum member of `TokenType`, as Python's `enum` exposes it. -/
def TokenType.name : TokenType → String
  | .EOF => "EOF"
  | .NEWLINE => "NEWLINE"
  | .NUMBER => "NUMBER"
  | .IDENT => "IDENT"
  | .STRING => "STRING"
  | .LABEL => "LABEL"
  | .GOTO => "GOTO"
  | .PRINT => "PRINT"
  | .INPUT => "INPUT"
  | .LET => "LET"
  | .IF => "IF"
  | .THEN => "THEN"
  | .ENDIF => "ENDIF"
  | .WHILE => "WHILE"
  | .REPEAT => "REPEAT"
  | .ENDWHILE => "ENDWHILE"
  | .EQ => "EQ"
  | .PLUS => "PLUS"
  | .MINUS => "MINUS"
  | .ASTERISK => "ASTERISK"
  | .SLASH => "SLASH"
  | .EQEQ => "EQEQ"
  | .NOTEQ => "NOTEQ"
  | .LT => "LT"
  | .LTEQ => "LTEQ"
  | .GT => "GT"
  | .GTEQ => "GTEQ"

/-- The members of `TokenType` in declaration order, as `for kind in TokenType`
iterates them. -/
def allTokenTypes : List TokenType :=
  [.EOF, .NEWLINE, .NUMBER, .IDENT, .STRING,
   .LABEL, .GOTO, .PRINT, .INPUT, .LET, .IF, .THEN, .ENDIF, .WHILE, .REPEAT, .ENDWHILE,
   .EQ, .PLUS, .MINUS, .ASTERISK, .SLASH, .EQEQ, .NOTEQ, .LT, .LTEQ, .GT, .GTEQ]

/-- A token: the exact source spelling paired with its classification
(`class Token` in `lex.py`). -/
structure Token where
  text : String
  kind : TokenType
deriving DecidableEq, Repr

/-- `Token.checkIfKeyword`: the first `TokenType` member whose name equals the
text and whose value lies in `[100, 200)`, else `none`. -/
def Token.checkIfKeyword (tokenText : String) : Option TokenType :=
  allTokenTypes.find? fun kind =>
    kind.name == tokenText && decide (100 ≤ kind.value) && decide (kind.value < 200)

/-- The derived current character of `Lexer`: `source[pos]`, or the `'\x00'`
end-of-file marker once the cursor reaches or passes the buffer end
(`Lexer.nextChar` / `Lexer.peek`). -/
def charAt (src : List Char) (pos : Nat) : Char :=
  src.getD pos '\x00'

/-- Whitespace skipped by `Lexer.skipWhitespace`: space, tab, carriage return
(never newline). -/
def isWsChar (c : Char) : Bool :=
  c = ' ' || c = '\t' || c = '\r'

/-- The loop of `Lexer.skipWhitespace`; the first argument bounds the
iterations (`src.length - pos` suffices: past the end the current character
is `'\x00'`, which is not whitespace, so the Python loop stops too). -/
def skipWsAux (src : List Char) : Nat → Nat → Nat
  | 0, pos => pos
  | k + 1, pos => if isWsChar (charAt src pos) then skipWsAux src k (pos + 1) else pos

/-- `Lexer.skipWhitespace`, as the position it leaves the cursor at. -/
def skipWs (src : List Char) (pos : Nat) : Nat :=
  skipWsAux src (src.length - pos) pos

/-- The loop of `Lexer.skipComment` (`while curChar != '\n'`); the first
argument bounds the iterations.  When the buffer ends before a newline the
Python loop never stops (the current character stays `'\x00'`): that
unreachable-in-practice case is the `"Nontermination."` sentinel. -/
def skipCommentAux (src : List Char) : Nat → Nat → Except String Nat
  | 0, _ => .error "Nontermination."
  | k + 1, pos =>
    if charAt src pos = '\n' then .ok pos else skipCommentAux src k (pos + 1)

/-- `Lexer.skipComment`: discard characters up to but excluding the next
newline when the current character is `'#'`. -/
def skipCommentPhase (src : List Char) (pos : Nat) : Except String Nat :=
  if charAt src pos = '#' then skipCommentAux src (src.length - pos) pos else .ok pos

/-- The characters `Lexer.getToken` rejects inside a string literal. -/
def illegalInString (c : Char) : Bool :=
  c = '\r' || c = '\n' || c = '\t' || c = '%' || c = '\\'

/-- The string-literal scan of `Lexer.getToken` (`while curChar != '"'`),
returning the position of the closing quote; the first argument bounds the
iterations.  With no closing quote and no illegal character left in the
buffer the Python loop never stops: the `"Nontermination."` sentinel. -/
def stringEndAux (src : List Char) : Nat → Nat → Except String Nat
  | 0, _ => .error "Nontermination."
  | k + 1, pos =>
    if charAt src pos = '\"' then .ok pos
    else if illegalInString (charAt src pos) then
      .error "Lexing Error. Illegal character in string."
    else stringEndAux src k (pos + 1)

/-- The digit-run scan of `Lexer.getToken` (`while peek().isdigit(): nextChar()`),
returning the position of the last digit; the first argument bounds the
iterations (past the end `peek` is `'\x00'`, not a digit, so Python stops too). -/
def scanDigitsAux (src : List Char) : Nat → Nat → Nat
  | 0, pos => pos
  | k + 1, pos =>
    if (charAt src (pos + 1)).isDigit then scanDigitsAux src k (pos + 1) else pos

/-- The position of the last character of the digit run starting at `pos`. -/
def scanDigits (src : List Char) (pos : Nat) : Nat :=
  scanDigitsAux src (src.length - pos) pos

/-- The identifier scan of `Lexer.getToken` (`while peek().isalnum(): nextChar()`). -/
def scanAlnumAux (src : List Char) : Nat → Nat → Nat
  | 0, pos => pos
  | k + 1, pos =>
    if (charAt src (pos + 1)).isAlphanum then scanAlnumAux src k (pos + 1) else pos

/-- The position of the last character of the alphanumeric run starting at `pos`. -/
def scanAlnum (src : List Char) (pos : Nat) : Nat :=
  scanAlnumAux src (src.length - pos) pos

/-- Python slicing `source[a:b]` of the buffer, as a `String`. -/
def sliceStr (src : List Char) (a b : Nat) : String :=
  String.mk ((src.drop a).take (b - a))

/-- `Lexer.getToken`: skip whitespace, skip a comment, classify the current
character, build one token, and advance the cursor past it (the trailing
`nextChar`).  Fatal lexical errors are `Lexer.abort`'s exact messages. -/
def getToken (src : List Char) (pos : Nat) : Except String (Token × Nat) :=
  let p1 := skipWs src pos
  match skipCommentPhase src p1 with
  | .error e => .error e
  | .ok p =>
    let c := charAt src p
    if c = '+' then .ok (⟨String.singleton c, .PLUS⟩, p + 1)
    else if c = '-' then .ok (⟨String.singleton c, .MINUS⟩, p + 1)
    else if c = '*' then .ok (⟨String.singleton c, .ASTERISK⟩, p + 1)
    else if c = '/' then .ok (⟨String.singleton c, .SLASH⟩, p + 1)
    else if c = '\n' then .ok (⟨String.singleton c, .NEWLINE⟩, p + 1)
    else if c = '=' then
      if charAt src (p + 1) = '=' then
        .ok (⟨String.singleton c ++ String.singleton (charAt src (p + 1)), .EQEQ⟩, p + 2)
      else .ok (⟨String.singleton c, .EQ⟩, p + 1)
    else if c = '>' then
      if charAt src (p + 1) = '=' then
        .ok (⟨String.singleton c ++ String.singleton (charAt src (p + 1)), .GTEQ⟩, p + 2)
      else .ok (⟨String.singleton c, .GT⟩, p + 1)
    else if c = '<' then
      if charAt src (p + 1) = '=' then
        .ok (⟨String.singleton c ++ String.singleton (charAt src (p + 1)), .LTEQ⟩, p + 2)
      else .ok (⟨String.singleton c, .LT⟩, p + 1)
    else if c = '!' then
      if charAt src (p + 1) = '=' then
        .ok (⟨String.singleton c ++ String.singleton (charAt src (p + 1)), .NOTEQ⟩, p + 2)
      else .error ("Lexing Error. Expected !=,  got !" ++ String.singleton (charAt src (p + 1)))
    else if c = '\"' then
      match stringEndAux src (src.length - (p + 1)) (p + 1) with
      | .error e => .error e
      | .ok q => .ok (⟨sliceStr src (p + 1) q, .STRING⟩, q + 1)
    else if c.isDigit then
      let q := scanDigits src p
      if charAt src (q + 1) = '.' then
        if ¬ (charAt src (q + 2)).isDigit then
          .error "Lexing Error. Illegal character in number."
        else
          let q2 := scanDigits src (q + 1)
          .ok (⟨sliceStr src p (q2 + 1), .NUMBER⟩, q2 + 1)
      else .ok (⟨sliceStr src p (q + 1), .NUMBER⟩, q + 1)
    else if c.isAlpha then
      let q := scanAlnum src p
      let t := sliceStr src p (q + 1)
      match Token.checkIfKeyword t with
      | none => .ok (⟨t, .IDENT⟩, q + 1)
      | some kw => .ok (⟨t, kw⟩, q + 1)
    else if c = '\x00' then .ok (⟨String.singleton c, .EOF⟩, p + 1)
    else .error ("Lexing Error. Unknown token: " ++ String.singleton c)

/-- The buffer `Lexer.__init__` builds: the source text plus one appended
newline. -/
def mkSource (s : String) : List Char :=
  s.data ++ ['\n']

/-- The whole-run state of `Parser` (`parse.py`): the lexer it owns (`src`,
`pos`), the two-token window, the three accumulate-only name sets (kept as
lists in insertion order, deduplicated on insertion as Python's `set.add`
deduplicates), and the emitter's two streams. -/
structure PState where
  src : List Char
  pos : Nat
  curToken : Token
  peekToken : Token
  symbols : List String
  labelsDeclared : List String
  labelsGotoed : List String
  header : String
  code : String
deriving DecidableEq, Repr

/-- Modelled from the spec: the emitter's `appendToBody(fragment)` (section 6),
an append to the body stream. -/
def emit (s : String) (st : PState) : PState :=
  { st with code := st.code ++ s }

/-- Modelled from the spec: the emitter's `appendStatementToBody(fragment)`
(section 6), appending the fragment and the line break that ends one emitted
statement line. -/
def emitLine (s : String) (st : PState) : PState :=
  { st with code := st.code ++ s ++ "\n" }

/-- Modelled from the spec: the emitter's `appendToPreamble(fragment)`
(section 6), appending one declaration line to the preamble stream. -/
def headerLine (s : String) (st : PState) : PState :=
  { st with header := st.header ++ s ++ "\n" }

/-- Python `set.add` on a name set kept as a list in insertion order. -/
def addSet (x : String) (l : List String) : List String :=
  if x ∈ l then l else l ++ [x]

/-- `Parser.nextToken`: slide the window and pull one token from the lexer. -/
def nextToken (st : PState) : Except String PState :=
  match getToken st.src st.pos with
  | .error e => .error e
  | .ok (t, p) => .ok { st with pos := p, curToken := st.peekToken, peekToken := t }

/-- `Parser.match`: require the current token's kind, then advance. -/
def matchKind (k : TokenType) (st : PState) : Except String PState :=
  if st.curToken.kind = k then nextToken st
  else .error ("Error. Expected " ++ k.name ++ ", got " ++ st.curToken.kind.name)

/-- The first-occurrence declaration step shared by the `LET` and `INPUT`
branches of `Parser.statement`: if the current token's text is not yet in
`symbols`, insert it and emit one `float` declaration into the preamble. -/
def declareVar (st : PState) : PState :=
  if st.curToken.text ∈ st.symbols then st
  else headerLine ("float " ++ st.curToken.text ++ ";")
    { st with symbols := addSet st.curToken.text st.symbols }

/-- Weight of one window slot for bounding the newline-skipping loop. -/
def nlWeight (t : Token) : Nat :=
  if t.kind = .NEWLINE then 1 else 0

/-- An upper bound on the iterations of a `while checkToken(NEWLINE): nextToken()`
loop from state `st`: each pull either advances the cursor inside the buffer
or (past the end) pulls an `EOF` token into the window, so the loop runs at
most this many times. -/
def skipFuel (st : PState) : Nat :=
  (st.src.length + 2 - st.pos) + nlWeight st.curToken + nlWeight st.peekToken

/-- The body of the newline-skipping loops of `Parser.program` (leading
newlines) and `Parser.nl` (extra newlines); the first argument bounds the
iterations (`skipFuel` suffices, see `skipNewlinesAux_congr`). -/
def skipNewlinesAux : Nat → PState → Except String PState
  | 0, st => .ok st
  | k + 1, st =>
    if st.curToken.kind = .NEWLINE then
      match nextToken st with
      | .error e => .error e
      | .ok st2 => skipNewlinesAux k st2
    else .ok st

/-- `while checkToken(NEWLINE): nextToken()`. -/
def skipNewlines (st : PState) : Except String PState :=
  skipNewlinesAux (skipFuel st) st

/-- `Parser.nl`: require at least one newline, then allow extras. -/
def nlF (st : PState) : Except String PState :=
  match matchKind .NEWLINE st with
  | .error e => .error e
  | .ok st2 => skipNewlines st2

/-- `Parser.primary`: a number, or an identifier that must already be in
`symbols`. -/
def primaryF (st : PState) : Except String PState :=
  if st.curToken.kind = .NUMBER then nextToken (emit st.curToken.text st)
  else if st.curToken.kind = .IDENT then
    if st.curToken.text ∈ st.symbols then nextToken (emit st.curToken.text st)
    else .error ("Error. Referencing variable before assignment: " ++ st.curToken.text)
  else .error ("Error. Unexpected token at " ++ st.curToken.text)

/-- `Parser.unary`: an optional sign, then a primary. -/
def unaryF (st : PState) : Except String PState :=
  if st.curToken.kind = .PLUS ∨ st.curToken.kind = .MINUS then
    match nextToken (emit st.curToken.text st) with
    | .error e => .error e
    | .ok st2 => primaryF st2
  else primaryF st

/-- Sequencing for the fuelled parser functions: `none` is fuel exhaustion,
an error aborts the run. -/
def obind (r : Option (Except String PState)) (g : PState → Option (Except String PState)) :
    Option (Except String PState) :=
  match r with
  | none => none
  | some (.error e) => some (.error e)
  | some (.ok st) => g st

/-- The `while` loop of `Parser.term` (`*` and `/`). -/
def termLoopF : Nat → PState → Option (Except String PState)
  | 0, _ => none
  | k + 1, st =>
    if st.curToken.kind = .ASTERISK ∨ st.curToken.kind = .SLASH then
      match nextToken (emit st.curToken.text st) with
      | .error e => some (.error e)
      | .ok st2 =>
        match unaryF st2 with
        | .error e => some (.error e)
        | .ok st3 => termLoopF k st3
    else some (.ok st)

/-- `Parser.term`: a unary, then zero or more `*`/`/` unaries. -/
def termF : Nat → PState → Option (Except String PState)
  | 0, _ => none
  | k + 1, st =>
    match unaryF st with
    | .error e => some (.error e)
    | .ok st2 => termLoopF k st2

/-- The `while` loop of `Parser.expression` (`+` and `-`). -/
def exprLoopF : Nat → PState → Option (Except String PState)
  | 0, _ => none
  | k + 1, st =>
    if st.curToken.kind = .PLUS ∨ st.curToken.kind = .MINUS then
      match nextToken (emit st.curToken.text st) with
      | .error e => some (.error e)
      | .ok st2 => obind (termF k st2) (exprLoopF k)
    else some (.ok st)

/-- `Parser.expression`: a term, then zero or more `+`/`-` terms. -/
def expressionF : Nat → PState → Option (Except String PState)
  | 0, _ => none
  | k + 1, st => obind (termF k st) (exprLoopF k)

/-- `Parser.isComparisonOperator`. -/
def isComparisonOperator (st : PState) : Bool :=
  st.curToken.kind == .GT || st.curToken.kind == .GTEQ || st.curToken.kind == .LT ||
  st.curToken.kind == .LTEQ || st.curToken.kind == .EQEQ || st.curToken.kind == .NOTEQ

/-- The trailing `while` loop of `Parser.comparison`. -/
def compLoopF : Nat → PState → Option (Except String PState)
  | 0, _ => none
  | k + 1, st =>
    if isComparisonOperator st then
      match nextToken (emit st.curToken.text st) with
      | .error e => some (.error e)
      | .ok st2 => obind (expressionF k st2) (compLoopF k)
    else some (.ok st)

/-- `Parser.comparison`: an expression, one required comparison operator and
expression, then zero or more further ones. -/
def comparisonF : Nat → PState → Option (Except String PState)
  | 0, _ => none
  | k + 1, st =>
    obind (expressionF k st) fun st2 =>
      if isComparisonOperator st2 then
        match nextToken (emit st2.curToken.text st2) with
        | .error e => some (.error e)
        | .ok st3 => obind (expressionF k st3) (compLoopF k)
      else some (.error ("Error. Expected comparison operator at: " ++ st2.curToken.text))

mutual

/-- `Parser.statement`: one statement form, then the mandatory newline run.
Fuel bounds the statement-level recursion; `none` is fuel exhaustion. -/
def statementF : Nat → PState → Option (Except String PState)
  | 0, _ => none
  | k + 1, st =>
    obind
      (if st.curToken.kind = .PRINT then
        match nextToken st with
        | .error e => some (.error e)
        | .ok st2 =>
          if st2.curToken.kind = .STRING then
            match nextToken (emitLine ("printf(\"" ++ st2.curToken.text ++ "\\n\");") st2) with
            | .error e => some (.error e)
            | .ok st3 => some (.ok st3)
          else
            obind (expressionF k (emit ("printf(\"%.2f\\n\", (float)(") st2)) fun st3 =>
              some (.ok (emitLine ("));") st3))
      else if st.curToken.kind = .IF then
        match nextToken st with
        | .error e => some (.error e)
        | .ok st2 =>
          obind (comparisonF k (emit ("if(") st2)) fun st3 =>
            match matchKind .THEN st3 with
            | .error e => some (.error e)
            | .ok st4 =>
              match nlF st4 with
              | .error e => some (.error e)
              | .ok st5 =>
                obind (loopUntilF k .ENDIF (emitLine (")\x7b") st5)) fun st6 =>
                  match matchKind .ENDIF st6 with
                  | .error e => some (.error e)
                  | .ok st7 => some (.ok (emitLine ("\x7d") st7))
      else if st.curToken.kind = .WHILE then
        match nextToken st with
        | .error e => some (.error e)
        | .ok st2 =>
          obind (comparisonF k (emit ("while(") st2)) fun st3 =>
            match matchKind .REPEAT st3 with
            | .error e => some (.error e)
            | .ok st4 =>
              match nlF st4 with
              | .error e => some (.error e)
              | .ok st5 =>
                obind (loopUntilF k .ENDWHILE (emitLine (")\x7b") st5)) fun st6 =>
                  match matchKind .ENDWHILE st6 with
                  | .error e => some (.error e)
                  | .ok st7 => some (.ok (emitLine ("\x7d") st7))
      else if st.curToken.kind = .LABEL then
        match nextToken st with
        | .error e => some (.error e)
        | .ok st2 =>
          if st2.curToken.text ∈ st2.labelsDeclared then
            some (.error ("Error. Label already exists: " ++ st2.curToken.text))
          else
            some (matchKind .IDENT (emitLine (st2.curToken.text ++ ":")
              { st2 with labelsDeclared := addSet st2.curToken.text st2.labelsDeclared }))
      else if st.curToken.kind = .GOTO then
        match nextToken st with
        | .error e => some (.error e)
        | .ok st2 =>
          some (matchKind .IDENT (emitLine ("goto " ++ st2.curToken.text ++ ";")
            { st2 with labelsGotoed := addSet st2.curToken.text st2.labelsGotoed }))
      else if st.curToken.kind = .LET then
        match nextToken st with
        | .error e => some (.error e)
        | .ok st2 =>
          match matchKind .IDENT (emit (st2.curToken.text ++ " = ") (declareVar st2)) with
          | .error e => some (.error e)
          | .ok st3 =>
            match matchKind .EQ st3 with
            | .error e => some (.error e)
            | .ok st4 =>
              obind (expressionF k st4) fun st5 => some (.ok (emitLine (";") st5))
      else if st.curToken.kind = .INPUT then
        match nextToken st with
        | .error e => some (.error e)
        | .ok st2 =>
          some (matchKind .IDENT
            (emitLine ("\x7d")
              (emitLine ("*s\");")
                (emit ("scanf(\"%")
                  (emitLine (st2.curToken.text ++ " = 0;")
                    (emitLine ("if(0==scanf(\"%f\", &" ++ st2.curToken.text ++ ")) \x7b")
                      (declareVar st2)))))))
      else
        some (.error ("Error. Invalid Statement at " ++ st.curToken.text ++ " (" ++
          st.curToken.kind.name ++ ")")))
      fun st9 => some (nlF st9)

/-- One of the three statement-list loops (`while not checkToken(stop): statement()`,
with `stop` the `EOF`, `ENDIF` or `ENDWHILE` token kind). -/
def loopUntilF : Nat → TokenType → PState → Option (Except String PState)
  | 0, _, _ => none
  | k + 1, stop, st =>
    if st.curToken.kind = stop then some (.ok st)
    else obind (statementF k st) (loopUntilF k stop)

end

/-- The fixed preamble `Parser.program` emits before the first statement. -/
def headerStart (st : PState) : PState :=
  headerLine ("int main(void)\x7b") (headerLine ("#include <stdio.h>") st)

/-- The fixed epilogue `Parser.program` emits after the last statement. -/
def epilogue (st : PState) : PState :=
  emitLine ("\x7d") (emitLine ("return 0;") st)

/-- The deferred end-of-program check of `Parser.program`: every label in
`labelsGotoed` (iterated in insertion order) must be in `labelsDeclared`;
the first violation is fatal, naming that label. -/
def checkLabels : List String → PState → Except String PState
  | [], st => .ok st
  | l :: rest, st =>
    if l ∈ st.labelsDeclared then checkLabels rest st
    else .error ("Error. Attempting to GOTO to an undeclared label: " ++ l)

/-- `Parser.program`: preamble, leading-newline skip, the statement list up
to `EOF`, epilogue, then the deferred label check. -/
def programF (fuel : Nat) (st : PState) : Option (Except String PState) :=
  match skipNewlines (headerStart st) with
  | .error e => some (.error e)
  | .ok st2 =>
    obind (loopUntilF fuel .EOF st2) fun st3 =>
      some (checkLabels (epilogue st3).labelsGotoed (epilogue st3))

/-- `Parser.__init__` on the buffer `src`: the window after the two initial
`nextToken` calls, with empty sets and empty streams. -/
def initState (src : List Char) : Except String PState :=
  match getToken src 0 with
  | .error e => .error e
  | .ok (t1, p1) =>
    match getToken src p1 with
    | .error e => .error e
    | .ok (t2, p2) => .ok ⟨src, p2, t1, t2, [], [], [], "", ""⟩

/-- One translation run on source `s` with the given statement-level fuel,
down to the final parser state. -/
def translateSt (fuel : Nat) (s : String) : Option (Except String PState) :=
  match initState (mkSource s) with
  | .error e => some (.error e)
  | .ok st => programF fuel st

/-- Modelled from the spec: the run's user-visible outcome (section 6) — on
success the emitter's `renderFullText()`, preamble then body; on failure the
single diagnostic. -/
def renderOut (st : PState) : String :=
  st.header ++ st.code

/-- `translateSt` rendered to the output text. -/
def translateF (fuel : Nat) (s : String) : Option (Except String String) :=
  (translateSt fuel s).map (Except.map renderOut)

/-- Modelled from the spec: `translate()` — the whole pipeline on one source
text, with fuel ample for its length (the fuel bounds only the
statement-level recursion, which consumes tokens, themselves at least one
character each; the `"Nontermination."` sentinel is unreachable). -/
def translateOut (s : String) : Except String String :=
  match translateF (8 * s.length + 64) s with
  | none => .error "Nontermination."
  | some r => r

/-- A run of `n` newline characters, for stating that leading blank lines do
not change a translation. -/
def nlRun (n : Nat) : String :=
  String.mk (List.replicate n '\n')

/-- The state `st` with `a` prepended to its buffer and its cursor moved past
`a`: the relation between a run on a source with leading newlines and the
run on the source without them. -/
def shiftSt (a : List Char) (st : PState) : PState :=
  { st with src := a ++ st.src, pos := a.length + st.pos }

/-- The part of a run before the statement list: initialization, the fixed
preamble, and the leading-newline skip of `Parser.program`. -/
def startRun (src : List Char) : Except String PState :=
  match initState src with
  | .error e => .error e
  | .ok st => skipNewlines (headerStart st)

/-- The part of a run after the leading-newline skip: the statement list up
to `EOF`, the epilogue, and the deferred label check. -/
def finishRun (fuel : Nat) (st2 : PState) : Option (Except String PState) :=
  obind (loopUntilF fuel .EOF st2) fun st3 =>
    some (checkLabels (epilogue st3).labelsGotoed (epilogue st3))

/-- `shiftSt` on a fuelled parser result. -/
def shiftRes (a : List Char) (r : Option (Except String PState)) :
    Option (Except String PState) :=
  r.map (Except.map (shiftSt a))

theorem charAt_oob {src : List Char} {pos : Nat} (h : src.length ≤ pos) :
    charAt src pos = '\x00' :=
  List.getD_eq_default src _ h

theorem charAt_append (a b : List Char) (p : Nat) :
    charAt (a ++ b) (a.length + p) = charAt b p := by
  unfold charAt
  rw [List.getD_append_right _ _ _ _ (Nat.le_add_right _ _), Nat.add_sub_cancel_left]

theorem sliceStr_shift (a b : List Char) (i j : Nat) :
    sliceStr (a ++ b) (a.length + i) (a.length + j) = sliceStr b i j := by
  unfold sliceStr
  rw [List.drop_append, Nat.add_sub_add_left]

theorem skipWsAux_ge (src : List Char) (k p : Nat) : p ≤ skipWsAux src k p := by
  induction k generalizing p with
  | zero => simp [skipWsAux]
  | succ k ih =>
    unfold skipWsAux
    split
    · exact Nat.le_trans (Nat.le_succ p) (ih (p + 1))
    · exact Nat.le_refl p

theorem skipWs_ge (src : List Char) (p : Nat) : p ≤ skipWs src p :=
  skipWsAux_ge src _ p

theorem skipWsAux_shift (a b : List Char) (k p : Nat) :
    skipWsAux (a ++ b) k (a.length + p) = a.length + skipWsAux b k p := by
  induction k generalizing p with
  | zero => simp [skipWsAux]
  | succ k ih =>
    unfold skipWsAux
    rw [charAt_append]
    split
    · rw [Nat.add_assoc]; exact ih (p + 1)
    · rfl

theorem skipWs_shift (a b : List Char) (p : Nat) :
    skipWs (a ++ b) (a.length + p) = a.length + skipWs b p := by
  unfold skipWs
  rw [List.length_append, Nat.add_sub_add_left]
  exact skipWsAux_shift a b _ p

theorem skipWsAux_nomove (src : List Char) (k p : Nat)
    (h : ¬ isWsChar (charAt src p)) : skipWsAux src k p = p := by
  cases k with
  | zero => rfl
  | succ k => unfold skipWsAux; simp [h]

theorem skipWs_nomove {src : List Char} {p : Nat}
    (h : ¬ isWsChar (charAt src p)) : skipWs src p = p :=
  skipWsAux_nomove src _ p h

theorem skipWsAux_not_ws (src : List Char) (k p : Nat) (hk : src.length ≤ p + k) :
    ¬ isWsChar (charAt src (skipWsAux src k p)) := by
  induction k generalizing p with
  | zero =>
    unfold skipWsAux
    rw [charAt_oob (by omega)]
    simp [isWsChar]
  | succ k ih =>
    unfold skipWsAux
    split
    · exact ih (p + 1) (by omega)
    · assumption

theorem skipWs_not_ws (src : List Char) (p : Nat) :
    ¬ isWsChar (charAt src (skipWs src p)) :=
  skipWsAux_not_ws src _ p (by omega)

theorem skipCommentAux_ge {src : List Char} {k p q : Nat}
    (h : skipCommentAux src k p = .ok q) : p ≤ q := by
  induction k generalizing p with
  | zero => simp [skipCommentAux] at h
  | succ k ih =>
    unfold skipCommentAux at h
    split at h
    · cases h; exact Nat.le_refl _
    · exact Nat.le_trans (Nat.le_succ p) (ih h)

theorem skipCommentAux_shift (a b : List Char) (k p : Nat) :
    skipCommentAux (a ++ b) k (a.length + p) =
      (skipCommentAux b k p).map (a.length + ·) := by
  induction k generalizing p with
  | zero => rfl
  | succ k ih =>
    unfold skipCommentAux
    rw [charAt_append]
    split
    · rfl
    · rw [Nat.add_assoc]; exact ih (p + 1)

theorem skipCommentPhase_ge {src : List Char} {p q : Nat}
    (h : skipCommentPhase src p = .ok q) : p ≤ q := by
  unfold skipCommentPhase at h
  split at h
  · exact skipCommentAux_ge h
  · cases h; exact Nat.le_refl _

theorem skipCommentPhase_shift (a b : List Char) (p : Nat) :
    skipCommentPhase (a ++ b) (a.length + p) =
      (skipCommentPhase b p).map (a.length + ·) := by
  unfold skipCommentPhase
  rw [charAt_append]
  split
  · rw [List.length_append, Nat.add_sub_add_left]
    exact skipCommentAux_shift a b _ p
  · rfl

theorem skipCommentPhase_nomove {src : List Char} {p : Nat}
    (h : ¬ charAt src p = '#') : skipCommentPhase src p = .ok p := by
  unfold skipCommentPhase
  simp [h]

theorem stringEndAux_ge {src : List Char} {k p q : Nat}
    (h : stringEndAux src k p = .ok q) : p ≤ q := by
  induction k generalizing p with
  | zero => simp [stringEndAux] at h
  | succ k ih =>
    unfold stringEndAux at h
    split at h
    · cases h; exact Nat.le_refl _
    · split at h
      · cases h
      · exact Nat.le_trans (Nat.le_succ p) (ih h)

theorem stringEndAux_shift (a b : List Char) (k p : Nat) :
    stringEndAux (a ++ b) k (a.length + p) =
      (stringEndAux b k p).map (a.length + ·) := by
  induction k generalizing p with
  | zero => rfl
  | succ k ih =>
    unfold stringEndAux
    rw [charAt_append]
    split
    · rfl
    · split
      · rfl
      · rw [Nat.add_assoc]; exact ih (p + 1)

theorem scanDigitsAux_ge (src : List Char) (k p : Nat) : p ≤ scanDigitsAux src k p := by
  induction k generalizing p with
  | zero => simp [scanDigitsAux]
  | succ k ih =>
    unfold scanDigitsAux
    split
    · exact Nat.le_trans (Nat.le_succ p) (ih (p + 1))
    · exact Nat.le_refl p

theorem scanDigits_ge (src : List Char) (p : Nat) : p ≤ scanDigits src p :=
  scanDigitsAux_ge src _ p

theorem scanDigitsAux_shift (a b : List Char) (k p : Nat) :
    scanDigitsAux (a ++ b) k (a.length + p) = a.length + scanDigitsAux b k p := by
  induction k generalizing p with
  | zero => simp [scanDigitsAux]
  | succ k ih =>
    unfold scanDigitsAux
    rw [Nat.add_assoc, charAt_append]
    split
    · exact ih (p + 1)
    · rfl

theorem scanDigits_shift (a b : List Char) (p : Nat) :
    scanDigits (a ++ b) (a.length + p) = a.length + scanDigits b p := by
  unfold scanDigits
  rw [List.length_append, Nat.add_sub_add_left]
  exact scanDigitsAux_shift a b _ p

theorem scanAlnumAux_ge (src : List Char) (k p : Nat) : p ≤ scanAlnumAux src k p := by
  induction k generalizing p with
  | zero => simp [scanAlnumAux]
  | succ k ih =>
    unfold scanAlnumAux
    split
    · exact Nat.le_trans (Nat.le_succ p) (ih (p + 1))
    · exact Nat.le_refl p

theorem scanAlnum_ge (src : List Char) (p : Nat) : p ≤ scanAlnum src p :=
  scanAlnumAux_ge src _ p

theorem scanAlnumAux_shift (a b : List Char) (k p : Nat) :
    scanAlnumAux (a ++ b) k (a.length + p) = a.length + scanAlnumAux b k p := by
  induction k generalizing p with
  | zero => simp [scanAlnumAux]
  | succ k ih =>
    unfold scanAlnumAux
    rw [Nat.add_assoc, charAt_append]
    split
    · exact ih (p + 1)
    · rfl

theorem scanAlnum_shift (a b : List Char) (p : Nat) :
    scanAlnum (a ++ b) (a.length + p) = a.length + scanAlnum b p := by
  unfold scanAlnum
  rw [List.length_append, Nat.add_sub_add_left]
  exact scanAlnumAux_shift a b _ p

set_option maxHeartbeats 2000000 in
theorem getToken_shift (a b : List Char) (p : Nat) :
    getToken (a ++ b) (a.length + p) =
      (getToken b p).map (fun tp => (tp.1, a.length + tp.2)) := by
  simp only [getToken]
  rw [skipWs_shift, skipCommentPhase_shift]
  cases h : skipCommentPhase b (skipWs b p) with
  | error e => rfl
  | ok q =>
    simp only [Except.map]
    simp only [scanDigitsAux_shift, scanDigits_shift, scanAlnum_shift, Nat.add_assoc]
    simp only [charAt_append]
    simp only [List.length_append]
    simp only [Nat.add_sub_add_left]
    rw [stringEndAux_shift]
    by_cases h1 : charAt b q = '+'
    · rw [if_pos h1, if_pos h1]
    rw [if_neg h1, if_neg h1]
    by_cases h2 : charAt b q = '-'
    · rw [if_pos h2, if_pos h2]
    rw [if_neg h2, if_neg h2]
    by_cases h3 : charAt b q = '*'
    · rw [if_pos h3, if_pos h3]
    rw [if_neg h3, if_neg h3]
    by_cases h4 : charAt b q = '/'
    · rw [if_pos h4, if_pos h4]
    rw [if_neg h4, if_neg h4]
    by_cases h5 : charAt b q = '\n'
    · rw [if_pos h5, if_pos h5]
    rw [if_neg h5, if_neg h5]
    by_cases h6 : charAt b q = '='
    · rw [if_pos h6, if_pos h6]; split_ifs <;> rfl
    rw [if_neg h6, if_neg h6]
    by_cases h7 : charAt b q = '>'
    · rw [if_pos h7, if_pos h7]; split_ifs <;> rfl
    rw [if_neg h7, if_neg h7]
    by_cases h8 : charAt b q = '<'
    · rw [if_pos h8, if_pos h8]; split_ifs <;> rfl
    rw [if_neg h8, if_neg h8]
    by_cases h9 : charAt b q = '!'
    · rw [if_pos h9, if_pos h9]; split_ifs <;> rfl
    rw [if_neg h9, if_neg h9]
    by_cases h10 : charAt b q = '\"'
    · rw [if_pos h10, if_pos h10]
      cases h2 : stringEndAux b (b.length - (q + 1)) (q + 1) with
      | error e => rfl
      | ok v => simp only [Except.map]; rw [sliceStr_shift, Nat.add_assoc]
    rw [if_neg h10, if_neg h10]
    by_cases h11 : (charAt b q).isDigit = true
    · rw [if_pos h11, if_pos h11]
      split_ifs <;> first | rfl | rw [sliceStr_shift]
    rw [if_neg h11, if_neg h11]
    by_cases h12 : (charAt b q).isAlpha = true
    · rw [if_pos h12, if_pos h12, sliceStr_shift]
      cases h2 : Token.checkIfKeyword (sliceStr b q (scanAlnum b q + 1)) <;> rfl
    rw [if_neg h12, if_neg h12]
    by_cases h13 : charAt b q = '\x00'
    · rw [if_pos h13, if_pos h13]
    rw [if_neg h13, if_neg h13]

theorem checkIfKeyword_ne_eof {t : String} {k : TokenType}
    (h : Token.checkIfKeyword t = some k) : ¬ k = .EOF := by
  intro he
  subst he
  have hp := List.find?_some h
  simp [TokenType.value, TokenType.name] at hp

set_option maxHeartbeats 2000000 in
theorem getToken_walk {src : List Char} {pos : Nat} {t : Token} {q' : Nat}
    (h : getToken src pos = .ok (t, q')) :
    pos < q' ∧ (t.kind = .EOF → charAt src (q' - 1) = '\x00') := by
  rw [getToken] at h
  cases h1 : skipCommentPhase src (skipWs src pos) with
  | error e => rw [h1] at h; exact Except.noConfusion h
  | ok q =>
    rw [h1] at h
    simp only [] at h
    have hq : pos ≤ q := Nat.le_trans (skipWs_ge src pos) (skipCommentPhase_ge h1)
    by_cases c1 : charAt src q = '+'
    · rw [if_pos c1] at h; cases h; exact ⟨by omega, fun hk => by cases hk⟩
    rw [if_neg c1] at h
    by_cases c2 : charAt src q = '-'
    · rw [if_pos c2] at h; cases h; exact ⟨by omega, fun hk => by cases hk⟩
    rw [if_neg c2] at h
    by_cases c3 : charAt src q = '*'
    · rw [if_pos c3] at h; cases h; exact ⟨by omega, fun hk => by cases hk⟩
    rw [if_neg c3] at h
    by_cases c4 : charAt src q = '/'
    · rw [if_pos c4] at h; cases h; exact ⟨by omega, fun hk => by cases hk⟩
    rw [if_neg c4] at h
    by_cases c5 : charAt src q = '\n'
    · rw [if_pos c5] at h; cases h; exact ⟨by omega, fun hk => by cases hk⟩
    rw [if_neg c5] at h
    by_cases c6 : charAt src q = '='
    · rw [if_pos c6] at h
      split_ifs at h <;> (cases h; exact ⟨by omega, fun hk => by cases hk⟩)
    rw [if_neg c6] at h
    by_cases c7 : charAt src q = '>'
    · rw [if_pos c7] at h
      split_ifs at h <;> (cases h; exact ⟨by omega, fun hk => by cases hk⟩)
    rw [if_neg c7] at h
    by_cases c8 : charAt src q = '<'
    · rw [if_pos c8] at h
      split_ifs at h <;> (cases h; exact ⟨by omega, fun hk => by cases hk⟩)
    rw [if_neg c8] at h
    by_cases c9 : charAt src q = '!'
    · rw [if_pos c9] at h
      split_ifs at h
      cases h; exact ⟨by omega, fun hk => by cases hk⟩
    rw [if_neg c9] at h
    by_cases c10 : charAt src q = '\"'
    · rw [if_pos c10] at h
      cases h2 : stringEndAux src (src.length - (q + 1)) (q + 1) with
      | error e => rw [h2] at h; exact absurd h (by simp)
      | ok v =>
        rw [h2] at h
        have hv : q + 1 ≤ v := stringEndAux_ge h2
        cases h; exact ⟨by omega, fun hk => by cases hk⟩
    rw [if_neg c10] at h
    by_cases c11 : (charAt src q).isDigit = true
    · rw [if_pos c11] at h
      have hd : q ≤ scanDigits src q := scanDigits_ge src q
      have hd2 : scanDigits src q + 1 ≤ scanDigits src (scanDigits src q + 1) :=
        scanDigits_ge src _
      split_ifs at h <;> (cases h; exact ⟨by omega, fun hk => by cases hk⟩)
    rw [if_neg c11] at h
    by_cases c12 : (charAt src q).isAlpha = true
    · rw [if_pos c12] at h
      have ha : q ≤ scanAlnum src q := scanAlnum_ge src q
      cases h2 : Token.checkIfKeyword (sliceStr src q (scanAlnum src q + 1)) with
      | none => rw [h2] at h; cases h; exact ⟨by omega, fun hk => by cases hk⟩
      | some kw =>
        rw [h2] at h
        cases h
        exact ⟨by omega, fun hk => absurd hk (checkIfKeyword_ne_eof h2)⟩
    rw [if_neg c12] at h
    by_cases c13 : charAt src q = '\x00'
    · rw [if_pos c13] at h
      cases h
      refine ⟨by omega, fun _ => ?_⟩
      simpa using c13
    · rw [if_neg c13] at h
      exact Except.noConfusion h

theorem getToken_at_end {src : List Char} {pos : Nat} (h : src.length ≤ pos) :
    getToken src pos = .ok (⟨"\x00", .EOF⟩, pos + 1) := by
  have hc : charAt src pos = '\x00' := charAt_oob h
  rw [getToken, skipWs_nomove (by rw [hc]; decide),
    skipCommentPhase_nomove (by rw [hc]; decide)]
  simp only [hc]
  rfl

theorem shiftSt_src (a : List Char) (st : PState) : (shiftSt a st).src = a ++ st.src := rfl

theorem shiftSt_pos (a : List Char) (st : PState) :
    (shiftSt a st).pos = a.length + st.pos := rfl

theorem shiftSt_curToken (a : List Char) (st : PState) :
    (shiftSt a st).curToken = st.curToken := rfl

theorem shiftSt_peekToken (a : List Char) (st : PState) :
    (shiftSt a st).peekToken = st.peekToken := rfl

theorem shiftSt_symbols (a : List Char) (st : PState) :
    (shiftSt a st).symbols = st.symbols := rfl

theorem shiftSt_labelsDeclared (a : List Char) (st : PState) :
    (shiftSt a st).labelsDeclared = st.labelsDeclared := rfl

theorem shiftSt_labelsGotoed (a : List Char) (st : PState) :
    (shiftSt a st).labelsGotoed = st.labelsGotoed := rfl

theorem shiftSt_header (a : List Char) (st : PState) :
    (shiftSt a st).header = st.header := rfl

theorem shiftSt_code (a : List Char) (st : PState) : (shiftSt a st).code = st.code := rfl

theorem shiftSt_nil (st : PState) : shiftSt [] st = st := by
  unfold shiftSt
  cases st
  simp

theorem shiftSt_append (a b : List Char) (st : PState) :
    shiftSt a (shiftSt b st) = shiftSt (a ++ b) st := by
  unfold shiftSt
  cases st
  simp [List.append_assoc]
  omega

theorem emit_shift (s : String) (a : List Char) (st : PState) :
    emit s (shiftSt a st) = shiftSt a (emit s st) := rfl

theorem emitLine_shift (s : String) (a : List Char) (st : PState) :
    emitLine s (shiftSt a st) = shiftSt a (emitLine s st) := rfl

theorem headerLine_shift (s : String) (a : List Char) (st : PState) :
    headerLine s (shiftSt a st) = shiftSt a (headerLine s st) := rfl

theorem declareVar_shift (a : List Char) (st : PState) :
    declareVar (shiftSt a st) = shiftSt a (declareVar st) := by
  unfold declareVar
  by_cases hc : st.curToken.text ∈ st.symbols
  · rw [if_pos hc, if_pos (show (shiftSt a st).curToken.text ∈ (shiftSt a st).symbols from hc)]
  · rw [if_neg hc, if_neg (show (shiftSt a st).curToken.text ∈ (shiftSt a st).symbols → False from hc)]
    rfl

theorem nextToken_shift (a : List Char) (st : PState) :
    nextToken (shiftSt a st) = (nextToken st).map (shiftSt a) := by
  unfold nextToken
  rw [shiftSt_src, shiftSt_pos, getToken_shift]
  cases getToken st.src st.pos with
  | error e => rfl
  | ok tp => rfl

theorem matchKind_shift (k : TokenType) (a : List Char) (st : PState) :
    matchKind k (shiftSt a st) = (matchKind k st).map (shiftSt a) := by
  unfold matchKind
  rw [shiftSt_curToken]
  split
  · exact nextToken_shift a st
  · rfl

theorem skipFuel_shift (a : List Char) (st : PState) :
    skipFuel (shiftSt a st) = skipFuel st := by
  unfold skipFuel
  rw [shiftSt_curToken, shiftSt_peekToken, shiftSt_src, shiftSt_pos, List.length_append]
  omega

theorem skipNewlinesAux_shift (a : List Char) (k : Nat) (st : PState) :
    skipNewlinesAux k (shiftSt a st) = (skipNewlinesAux k st).map (shiftSt a) := by
  induction k generalizing st with
  | zero => rfl
  | succ k ih =>
    unfold skipNewlinesAux
    rw [shiftSt_curToken]
    split
    · rw [nextToken_shift]
      cases nextToken st with
      | error e => rfl
      | ok st2 => exact ih st2
    · rfl

theorem skipNewlines_shift (a : List Char) (st : PState) :
    skipNewlines (shiftSt a st) = (skipNewlines st).map (shiftSt a) := by
  unfold skipNewlines
  rw [skipFuel_shift]
  exact skipNewlinesAux_shift a _ st

theorem nlF_shift (a : List Char) (st : PState) :
    nlF (shiftSt a st) = (nlF st).map (shiftSt a) := by
  unfold nlF
  rw [matchKind_shift]
  cases matchKind .NEWLINE st with
  | error e => rfl
  | ok st2 => exact skipNewlines_shift a st2

theorem primaryF_shift (a : List Char) (st : PState) :
    primaryF (shiftSt a st) = (primaryF st).map (shiftSt a) := by
  unfold primaryF
  rw [shiftSt_curToken, shiftSt_symbols]
  split
  · rw [emit_shift, nextToken_shift]
  · split
    · split
      · rw [emit_shift, nextToken_shift]
      · rfl
    · rfl

theorem unaryF_shift (a : List Char) (st : PState) :
    unaryF (shiftSt a st) = (unaryF st).map (shiftSt a) := by
  unfold unaryF
  rw [shiftSt_curToken]
  split
  · rw [emit_shift, nextToken_shift]
    cases nextToken (emit st.curToken.text st) with
    | error e => rfl
    | ok st2 => exact primaryF_shift a st2
  · exact primaryF_shift a st

theorem obind_shiftRes (a : List Char) (r : Option (Except String PState))
    (g g' : PState → Option (Except String PState))
    (hg : ∀ st, g (shiftSt a st) = shiftRes a (g' st)) :
    obind (shiftRes a r) g = shiftRes a (obind r g') := by
  cases r with
  | none => rfl
  | some x =>
    cases x with
    | error e => rfl
    | ok st => exact hg st

theorem termLoopF_shift (a : List Char) (k : Nat) (st : PState) :
    termLoopF k (shiftSt a st) = shiftRes a (termLoopF k st) := by
  induction k generalizing st with
  | zero => rfl
  | succ k ih =>
    unfold termLoopF
    rw [shiftSt_curToken]
    split
    · rw [emit_shift, nextToken_shift]
      cases nextToken (emit st.curToken.text st) with
      | error e => rfl
      | ok st2 =>
        simp only [Except.map]
        rw [unaryF_shift]
        cases unaryF st2 with
        | error e => rfl
        | ok st3 => exact ih st3
    · rfl

theorem termF_shift (a : List Char) (k : Nat) (st : PState) :
    termF k (shiftSt a st) = shiftRes a (termF k st) := by
  cases k with
  | zero => rfl
  | succ k =>
    simp only [termF]
    rw [unaryF_shift]
    cases unaryF st with
    | error e => rfl
    | ok st2 => exact termLoopF_shift a k st2

theorem exprLoopF_shift (a : List Char) (k : Nat) (st : PState) :
    exprLoopF k (shiftSt a st) = shiftRes a (exprLoopF k st) := by
  induction k generalizing st with
  | zero => rfl
  | succ k ih =>
    unfold exprLoopF
    rw [shiftSt_curToken]
    split
    · rw [emit_shift, nextToken_shift]
      cases nextToken (emit st.curToken.text st) with
      | error e => rfl
      | ok st2 =>
        simp only [Except.map]
        rw [termF_shift]
        exact obind_shiftRes a _ _ _ (fun st3 => ih st3)
    · rfl

theorem expressionF_shift (a : List Char) (k : Nat) (st : PState) :
    expressionF k (shiftSt a st) = shiftRes a (expressionF k st) := by
  cases k with
  | zero => rfl
  | succ k =>
    simp only [expressionF]
    rw [termF_shift]
    exact obind_shiftRes a _ _ _ (fun st2 => exprLoopF_shift a k st2)

theorem isComparisonOperator_shift (a : List Char) (st : PState) :
    isComparisonOperator (shiftSt a st) = isComparisonOperator st := rfl

theorem compLoopF_shift (a : List Char) (k : Nat) (st : PState) :
    compLoopF k (shiftSt a st) = shiftRes a (compLoopF k st) := by
  induction k generalizing st with
  | zero => rfl
  | succ k ih =>
    unfold compLoopF
    rw [isComparisonOperator_shift]
    split
    · rw [shiftSt_curToken, emit_shift, nextToken_shift]
      cases nextToken (emit st.curToken.text st) with
      | error e => rfl
      | ok st2 =>
        simp only [Except.map]
        rw [expressionF_shift]
        exact obind_shiftRes a _ _ _ (fun st3 => ih st3)
    · rfl

theorem comparisonF_shift (a : List Char) (k : Nat) (st : PState) :
    comparisonF k (shiftSt a st) = shiftRes a (comparisonF k st) := by
  cases k with
  | zero => rfl
  | succ k =>
    simp only [comparisonF]
    rw [expressionF_shift]
    refine obind_shiftRes a _ _ _ (fun st2 => ?_)
    rw [isComparisonOperator_shift]
    split
    · rw [shiftSt_curToken, emit_shift, nextToken_shift]
      cases nextToken (emit st2.curToken.text st2) with
      | error e => rfl
      | ok st3 =>
        simp only [Except.map]
        rw [expressionF_shift]
        exact obind_shiftRes a _ _ _ (fun st4 => compLoopF_shift a k st4)
    · rw [shiftSt_curToken]
      rfl

theorem obind_assoc (r : Option (Except String PState))
    (g1 g2 : PState → Option (Except String PState)) :
    obind (obind r g1) g2 = obind r (fun st => obind (g1 st) g2) := by
  cases r with
  | none => rfl
  | some x => cases x with
    | error e => rfl
    | ok st => rfl

theorem nl_tail_shift (a : List Char) (st9 : PState) :
    (some (nlF (shiftSt a st9)) : Option (Except String PState)) =
      shiftRes a (some (nlF st9)) := by
  rw [nlF_shift]
  cases nlF st9 <;> rfl

theorem obind_matchKind_nl (a : List Char) (k : TokenType) (X : PState) :
    obind (some (matchKind k (shiftSt a X))) (fun st9 => some (nlF st9)) =
      shiftRes a (obind (some (matchKind k X)) (fun st9 => some (nlF st9))) := by
  rw [matchKind_shift]
  cases matchKind k X with
  | error e => rfl
  | ok st3 => exact nl_tail_shift a st3

theorem statement_loop_shift (a : List Char) : ∀ k : Nat,
    (∀ st, statementF k (shiftSt a st) = shiftRes a (statementF k st)) ∧
    (∀ stop st, loopUntilF k stop (shiftSt a st) = shiftRes a (loopUntilF k stop st)) := by
  intro k
  induction k with
  | zero => exact ⟨fun _ => rfl, fun _ _ => rfl⟩
  | succ k ih =>
    constructor
    · intro st
      simp only [statementF]
      rw [shiftSt_curToken]
      by_cases hP : st.curToken.kind = .PRINT
      · rw [if_pos hP, if_pos hP, nextToken_shift]
        cases h1 : nextToken st with
        | error e => rfl
        | ok st2 =>
          simp only [Except.map]
          rw [shiftSt_curToken]
          by_cases hS : st2.curToken.kind = .STRING
          · rw [if_pos hS, if_pos hS, emitLine_shift, nextToken_shift]
            cases h2 : nextToken (emitLine ("printf(\"" ++ st2.curToken.text ++ "\\n\");") st2) with
            | error e => rfl
            | ok st3 =>
              simp only [Except.map]
              exact nl_tail_shift a st3
          · rw [if_neg hS, if_neg hS, emit_shift, expressionF_shift, obind_assoc, obind_assoc]
            refine obind_shiftRes a _ _ _ (fun st3 => ?_)
            rw [emitLine_shift]
            exact nl_tail_shift a _
      rw [if_neg hP, if_neg hP]
      by_cases hI : st.curToken.kind = .IF
      · rw [if_pos hI, if_pos hI, nextToken_shift]
        cases h1 : nextToken st with
        | error e => rfl
        | ok st2 =>
          simp only [Except.map]
          rw [emit_shift, comparisonF_shift, obind_assoc, obind_assoc]
          refine obind_shiftRes a _ _ _ (fun st3 => ?_)
          rw [matchKind_shift]
          cases h2 : matchKind .THEN st3 with
          | error e => rfl
          | ok st4 =>
            simp only [Except.map]
            rw [nlF_shift]
            cases h3 : nlF st4 with
            | error e => rfl
            | ok st5 =>
              simp only [Except.map]
              rw [emitLine_shift, (ih.2 .ENDIF _), obind_assoc, obind_assoc]
              refine obind_shiftRes a _ _ _ (fun st6 => ?_)
              rw [matchKind_shift]
              cases h4 : matchKind .ENDIF st6 with
              | error e => rfl
              | ok st7 =>
                simp only [Except.map]
                rw [emitLine_shift]
                exact nl_tail_shift a _
      rw [if_neg hI, if_neg hI]
      by_cases hW : st.curToken.kind = .WHILE
      · rw [if_pos hW, if_pos hW, nextToken_shift]
        cases h1 : nextToken st with
        | error e => rfl
        | ok st2 =>
          simp only [Except.map]
          rw [emit_shift, comparisonF_shift, obind_assoc, obind_assoc]
          refine obind_shiftRes a _ _ _ (fun st3 => ?_)
          rw [matchKind_shift]
          cases h2 : matchKind .REPEAT st3 with
          | error e => rfl
          | ok st4 =>
            simp only [Except.map]
            rw [nlF_shift]
            cases h3 : nlF st4 with
            | error e => rfl
            | ok st5 =>
              simp only [Except.map]
              rw [emitLine_shift, (ih.2 .ENDWHILE _), obind_assoc, obind_assoc]
              refine obind_shiftRes a _ _ _ (fun st6 => ?_)
              rw [matchKind_shift]
              cases h4 : matchKind .ENDWHILE st6 with
              | error e => rfl
              | ok st7 =>
                simp only [Except.map]
                rw [emitLine_shift]
                exact nl_tail_shift a _
      rw [if_neg hW, if_neg hW]
      by_cases hL : st.curToken.kind = .LABEL
      · rw [if_pos hL, if_pos hL, nextToken_shift]
        cases h1 : nextToken st with
        | error e => rfl
        | ok st2 =>
          simp only [Except.map]
          have hupd : ({ shiftSt a st2 with
              labelsDeclared :=
                addSet (shiftSt a st2).curToken.text (shiftSt a st2).labelsDeclared } : PState) =
              shiftSt a { st2 with
                labelsDeclared := addSet st2.curToken.text st2.labelsDeclared } := rfl
          rw [hupd, shiftSt_curToken, shiftSt_labelsDeclared]
          by_cases hD : st2.curToken.text ∈ st2.labelsDeclared
          · rw [if_pos hD, if_pos hD]
            rfl
          · rw [if_neg hD, if_neg hD, emitLine_shift, matchKind_shift]
            cases h2 : matchKind .IDENT (emitLine (st2.curToken.text ++ ":")
                { st2 with labelsDeclared := addSet st2.curToken.text st2.labelsDeclared }) with
            | error e => rfl
            | ok st3 =>
              simp only [Except.map]
              exact nl_tail_shift a _
      rw [if_neg hL, if_neg hL]
      by_cases hG : st.curToken.kind = .GOTO
      · rw [if_pos hG, if_pos hG, nextToken_shift]
        cases h1 : nextToken st with
        | error e => rfl
        | ok st2 =>
          simp only [Except.map]
          have hupd : ({ shiftSt a st2 with
              labelsGotoed :=
                addSet (shiftSt a st2).curToken.text (shiftSt a st2).labelsGotoed } : PState) =
              shiftSt a { st2 with
                labelsGotoed := addSet st2.curToken.text st2.labelsGotoed } := rfl
          rw [hupd, shiftSt_curToken, emitLine_shift, matchKind_shift]
          cases h2 : matchKind .IDENT (emitLine ("goto " ++ st2.curToken.text ++ ";")
              { st2 with labelsGotoed := addSet st2.curToken.text st2.labelsGotoed }) with
          | error e => rfl
          | ok st3 =>
            simp only [Except.map]
            exact nl_tail_shift a _
      rw [if_neg hG, if_neg hG]
      by_cases hLe : st.curToken.kind = .LET
      · rw [if_pos hLe, if_pos hLe, nextToken_shift]
        cases h1 : nextToken st with
        | error e => rfl
        | ok st2 =>
          simp only [Except.map]
          rw [shiftSt_curToken, declareVar_shift, emit_shift, matchKind_shift]
          cases h2 : matchKind .IDENT (emit (st2.curToken.text ++ " = ") (declareVar st2)) with
          | error e => rfl
          | ok st3 =>
            simp only [Except.map]
            rw [matchKind_shift]
            cases h3 : matchKind .EQ st3 with
            | error e => rfl
            | ok st4 =>
              simp only [Except.map]
              rw [expressionF_shift, obind_assoc, obind_assoc]
              refine obind_shiftRes a _ _ _ (fun st5 => ?_)
              rw [emitLine_shift]
              exact nl_tail_shift a _
      rw [if_neg hLe, if_neg hLe]
      by_cases hIn : st.curToken.kind = .INPUT
      · rw [if_pos hIn, if_pos hIn, nextToken_shift]
        cases h1 : nextToken st with
        | error e => rfl
        | ok st2 =>
          simp only [Except.map]
          rw [shiftSt_curToken, declareVar_shift]
          simp only [emitLine_shift, emit_shift]
          rw [matchKind_shift]
          cases h2 : matchKind .IDENT
              (emitLine ("\x7d")
                (emitLine ("*s\");")
                  (emit ("scanf(\"%")
                    (emitLine (st2.curToken.text ++ " = 0;")
                      (emitLine ("if(0==scanf(\"%f\", &" ++ st2.curToken.text ++ ")) \x7b")
                        (declareVar st2)))))) with
          | error e => rfl
          | ok st3 =>
            simp only [Except.map]
            exact nl_tail_shift a _
      rw [if_neg hIn, if_neg hIn]
      rfl
    · intro stop st
      simp only [loopUntilF]
      rw [shiftSt_curToken]
      by_cases hstop : st.curToken.kind = stop
      · rw [if_pos hstop, if_pos hstop]
        rfl
      · rw [if_neg hstop, if_neg hstop, ih.1 st]
        exact obind_shiftRes a _ _ _ (fun st2 => ih.2 stop st2)

theorem obind_mono {r r' : Option (Except String PState)}
    {g g' : PState → Option (Except String PState)}
    (hr : ∀ y, r = some y → r' = some y)
    (hg : ∀ st y, g st = some y → g' st = some y) :
    ∀ x, obind r g = some x → obind r' g' = some x := by
  intro x h
  cases r with
  | none => simp [obind] at h
  | some v =>
    rw [hr v rfl]
    cases v with
    | error e => exact h
    | ok st => exact hg st x h

theorem termLoopF_mono : ∀ {k : Nat} {st : PState} {r : Except String PState},
    termLoopF k st = some r → termLoopF (k + 1) st = some r := by
  intro k
  induction k with
  | zero => intro st r h; exact absurd h (by simp [termLoopF])
  | succ k ih =>
    intro st r h
    rw [termLoopF] at h
    rw [termLoopF]
    by_cases hc : st.curToken.kind = .ASTERISK ∨ st.curToken.kind = .SLASH
    · rw [if_pos hc] at h
      rw [if_pos hc]
      revert h
      cases h1 : nextToken (emit st.curToken.text st) with
      | error e => exact fun h => h
      | ok st2 =>
        simp only []
        cases h2 : unaryF st2 with
        | error e => exact fun h => h
        | ok st3 => exact fun h => ih h
    · rw [if_neg hc] at h
      rw [if_neg hc]
      exact h

theorem termF_mono : ∀ {k : Nat} {st : PState} {r : Except String PState},
    termF k st = some r → termF (k + 1) st = some r := by
  intro k st r h
  cases k with
  | zero => exact absurd h (by simp [termF])
  | succ k =>
    rw [termF] at h
    rw [termF]
    revert h
    cases h1 : unaryF st with
    | error e => exact fun h => h
    | ok st2 => exact fun h => termLoopF_mono h

theorem exprLoopF_mono : ∀ {k : Nat} {st : PState} {r : Except String PState},
    exprLoopF k st = some r → exprLoopF (k + 1) st = some r := by
  intro k
  induction k with
  | zero => intro st r h; exact absurd h (by simp [exprLoopF])
  | succ k ih =>
    intro st r h
    rw [exprLoopF] at h
    rw [exprLoopF]
    by_cases hc : st.curToken.kind = .PLUS ∨ st.curToken.kind = .MINUS
    · rw [if_pos hc] at h
      rw [if_pos hc]
      revert h
      cases h1 : nextToken (emit st.curToken.text st) with
      | error e => exact fun h => h
      | ok st2 =>
        exact fun h => obind_mono (fun y hy => termF_mono hy) (fun st3 y hy => ih hy) r h
    · rw [if_neg hc] at h
      rw [if_neg hc]
      exact h

theorem expressionF_mono : ∀ {k : Nat} {st : PState} {r : Except String PState},
    expressionF k st = some r → expressionF (k + 1) st = some r := by
  intro k st r h
  cases k with
  | zero => exact absurd h (by simp [expressionF])
  | succ k =>
    rw [expressionF] at h
    rw [expressionF]
    exact obind_mono (fun y hy => termF_mono hy) (fun st2 y hy => exprLoopF_mono hy) r h

theorem compLoopF_mono : ∀ {k : Nat} {st : PState} {r : Except String PState},
    compLoopF k st = some r → compLoopF (k + 1) st = some r := by
  intro k
  induction k with
  | zero => intro st r h; exact absurd h (by simp [compLoopF])
  | succ k ih =>
    intro st r h
    rw [compLoopF] at h
    rw [compLoopF]
    by_cases hc : isComparisonOperator st = true
    · rw [if_pos hc] at h
      rw [if_pos hc]
      revert h
      cases h1 : nextToken (emit st.curToken.text st) with
      | error e => exact fun h => h
      | ok st2 =>
        exact fun h => obind_mono (fun y hy => expressionF_mono hy) (fun st3 y hy => ih hy) r h
    · rw [if_neg hc] at h
      rw [if_neg hc]
      exact h

theorem comparisonF_mono : ∀ {k : Nat} {st : PState} {r : Except String PState},
    comparisonF k st = some r → comparisonF (k + 1) st = some r := by
  intro k st r h
  cases k with
  | zero => exact absurd h (by simp [comparisonF])
  | succ k =>
    rw [comparisonF] at h
    rw [comparisonF]
    refine obind_mono (fun y hy => expressionF_mono hy) (fun st2 y hy => ?_) r h
    by_cases hc : isComparisonOperator st2 = true
    · rw [if_pos hc] at hy
      rw [if_pos hc]
      revert hy
      cases h1 : nextToken (emit st2.curToken.text st2) with
      | error e => exact fun hy => hy
      | ok st3 =>
        exact fun hy => obind_mono (fun z hz => expressionF_mono hz)
          (fun st4 z hz => compLoopF_mono hz) y hy
    · rw [if_neg hc] at hy
      rw [if_neg hc]
      exact hy

theorem statement_loop_mono : ∀ k : Nat,
    (∀ st r, statementF k st = some r → statementF (k + 1) st = some r) ∧
    (∀ stop st r, loopUntilF k stop st = some r → loopUntilF (k + 1) stop st = some r) := by
  intro k
  induction k with
  | zero =>
    constructor
    · intro st r h; exact absurd h (by simp [statementF])
    · intro stop st r h; exact absurd h (by simp [loopUntilF])
  | succ k ih =>
    constructor
    · intro st r h
      rw [statementF] at h
      rw [statementF]
      refine obind_mono (fun y => ?_) (fun st9 y hy => hy) r h
      by_cases hP : st.curToken.kind = .PRINT
      · rw [if_pos hP, if_pos hP]
        cases h1 : nextToken st with
        | error e => exact fun h2 => h2
        | ok st2 =>
          simp only []
          by_cases hS : st2.curToken.kind = .STRING
          · rw [if_pos hS, if_pos hS]
            exact fun h2 => h2
          · rw [if_neg hS, if_neg hS]
            exact fun h2 => obind_mono (fun z hz => expressionF_mono hz)
              (fun st3 z hz => hz) y h2
      rw [if_neg hP, if_neg hP]
      by_cases hI : st.curToken.kind = .IF
      · rw [if_pos hI, if_pos hI]
        cases h1 : nextToken st with
        | error e => exact fun h2 => h2
        | ok st2 =>
          simp only []
          refine fun h2 => obind_mono (fun z hz => comparisonF_mono hz)
            (fun st3 z => ?_) y h2
          cases h3 : matchKind .THEN st3 with
          | error e => exact fun hz => hz
          | ok st4 =>
            simp only []
            cases h4 : nlF st4 with
            | error e => exact fun hz => hz
            | ok st5 =>
              simp only []
              exact fun hz => obind_mono (fun w hw => ih.2 _ _ _ hw)
                (fun st6 w hw => hw) z hz
      rw [if_neg hI, if_neg hI]
      by_cases hW : st.curToken.kind = .WHILE
      · rw [if_pos hW, if_pos hW]
        cases h1 : nextToken st with
        | error e => exact fun h2 => h2
        | ok st2 =>
          simp only []
          refine fun h2 => obind_mono (fun z hz => comparisonF_mono hz)
            (fun st3 z => ?_) y h2
          cases h3 : matchKind .REPEAT st3 with
          | error e => exact fun hz => hz
          | ok st4 =>
            simp only []
            cases h4 : nlF st4 with
            | error e => exact fun hz => hz
            | ok st5 =>
              simp only []
              exact fun hz => obind_mono (fun w hw => ih.2 _ _ _ hw)
                (fun st6 w hw => hw) z hz
      rw [if_neg hW, if_neg hW]
      by_cases hL : st.curToken.kind = .LABEL
      · rw [if_pos hL, if_pos hL]
        exact fun h2 => h2
      rw [if_neg hL, if_neg hL]
      by_cases hG : st.curToken.kind = .GOTO
      · rw [if_pos hG, if_pos hG]
        exact fun h2 => h2
      rw [if_neg hG, if_neg hG]
      by_cases hLe : st.curToken.kind = .LET
      · rw [if_pos hLe, if_pos hLe]
        cases h1 : nextToken st with
        | error e => exact fun h2 => h2
        | ok st2 =>
          simp only []
          cases h3 : matchKind .IDENT (emit (st2.curToken.text ++ " = ") (declareVar st2)) with
          | error e => exact fun h2 => h2
          | ok st3 =>
            simp only []
            cases h4 : matchKind .EQ st3 with
            | error e => exact fun h2 => h2
            | ok st4 =>
              simp only []
              exact fun h2 => obind_mono (fun z hz => expressionF_mono hz)
                (fun st5 z hz => hz) y h2
      rw [if_neg hLe, if_neg hLe]
      by_cases hIn : st.curToken.kind = .INPUT
      · rw [if_pos hIn]
        exact fun h2 => h2
      rw [if_neg hIn]
      exact fun h2 => h2
    · intro stop st r h
      rw [loopUntilF] at h
      rw [loopUntilF]
      by_cases hc : st.curToken.kind = stop
      · rw [if_pos hc] at h
        rw [if_pos hc]
        exact h
      · rw [if_neg hc] at h
        rw [if_neg hc]
        exact obind_mono (fun y hy => ih.1 _ _ hy) (fun st2 y hy => ih.2 _ _ _ hy) r h

theorem statementF_mono_le {k k' : Nat} {st : PState} {r : Except String PState}
    (hle : k ≤ k') (h : statementF k st = some r) : statementF k' st = some r := by
  induction hle with
  | refl => exact h
  | step _ ih => exact (statement_loop_mono _).1 _ _ ih

theorem loopUntilF_mono_le {k k' : Nat} {stop : TokenType} {st : PState}
    {r : Except String PState} (hle : k ≤ k') (h : loopUntilF k stop st = some r) :
    loopUntilF k' stop st = some r := by
  induction hle with
  | refl => exact h
  | step _ ih => exact (statement_loop_mono _).2 _ _ _ ih

theorem loopUntilF_det {k1 k2 : Nat} {stop : TokenType} {st : PState}
    {r1 r2 : Except String PState} (h1 : loopUntilF k1 stop st = some r1)
    (h2 : loopUntilF k2 stop st = some r2) : r1 = r2 := by
  have e1 : loopUntilF (max k1 k2) stop st = some r1 :=
    loopUntilF_mono_le (Nat.le_max_left k1 k2) h1
  have e2 : loopUntilF (max k1 k2) stop st = some r2 :=
    loopUntilF_mono_le (Nat.le_max_right k1 k2) h2
  rw [e1] at e2
  exact (Option.some.injEq _ _).mp e2

theorem nlWeight_le_one (t : Token) : nlWeight t ≤ 1 := by
  unfold nlWeight
  split <;> omega

theorem nlWeight_newline {t : Token} (h : t.kind = .NEWLINE) : nlWeight t = 1 := by
  simp [nlWeight, h]

theorem skipFuel_pos {st : PState} (h : st.curToken.kind = .NEWLINE) : 1 ≤ skipFuel st := by
  have hw : nlWeight st.curToken = 1 := nlWeight_newline h
  unfold skipFuel
  omega

theorem skipFuel_decrease {st st' : PState} (hnl : st.curToken.kind = .NEWLINE)
    (h : nextToken st = .ok st') : skipFuel st' < skipFuel st := by
  unfold nextToken at h
  cases hg : getToken st.src st.pos with
  | error e => rw [hg] at h; exact Except.noConfusion h
  | ok tp =>
    rw [hg] at h
    cases h
    have hlt : st.pos < tp.2 := (getToken_walk (by rw [← hg])).1
    have hw1 : nlWeight st.curToken = 1 := nlWeight_newline hnl
    have hwt : nlWeight tp.1 ≤ 1 := nlWeight_le_one tp.1
    show (st.src.length + 2 - tp.2) + nlWeight st.peekToken + nlWeight tp.1 < skipFuel st
    unfold skipFuel
    rw [hw1]
    by_cases hend : st.src.length ≤ st.pos
    · have he := @getToken_at_end st.src st.pos hend
      rw [hg] at he
      cases he
      have h0 : nlWeight ((⟨"\x00", TokenType.EOF⟩ : Token), st.pos + 1).1 = 0 := rfl
      rw [h0]
      omega
    · omega

theorem skipNewlinesAux_congr : ∀ {k1 k2 : Nat} {st : PState},
    skipFuel st ≤ k1 → skipFuel st ≤ k2 → skipNewlinesAux k1 st = skipNewlinesAux k2 st := by
  intro k1
  induction k1 with
  | zero =>
    intro k2 st h1 h2
    have hcur : ¬ st.curToken.kind = .NEWLINE := by
      intro hc
      have := skipFuel_pos hc
      omega
    cases k2 with
    | zero => rfl
    | succ k2 =>
      rw [skipNewlinesAux, skipNewlinesAux, if_neg hcur]
  | succ k1 ih =>
    intro k2 st h1 h2
    by_cases hcur : st.curToken.kind = .NEWLINE
    · have hpos := skipFuel_pos hcur
      cases k2 with
      | zero => omega
      | succ k2 =>
        rw [skipNewlinesAux, skipNewlinesAux, if_pos hcur, if_pos hcur]
        cases hn : nextToken st with
        | error e => rfl
        | ok st2 =>
          have hdec : skipFuel st2 < skipFuel st := skipFuel_decrease hcur hn
          exact ih (by omega) (by omega)
    · cases k2 with
      | zero =>
        rw [skipNewlinesAux, skipNewlinesAux, if_neg hcur]
      | succ k2 =>
        rw [skipNewlinesAux, skipNewlinesAux, if_neg hcur, if_neg hcur]

theorem skipNewlines_step {st : PState} (hnl : st.curToken.kind = .NEWLINE) :
    skipNewlines st =
      match nextToken st with
      | .error e => .error e
      | .ok st2 => skipNewlines st2 := by
  unfold skipNewlines
  have hpos := skipFuel_pos hnl
  cases hk : skipFuel st with
  | zero => omega
  | succ k =>
    rw [skipNewlinesAux, if_pos hnl]
    cases hn : nextToken st with
    | error e => rfl
    | ok st2 =>
      have hdec : skipFuel st2 < skipFuel st := skipFuel_decrease hnl hn
      exact skipNewlinesAux_congr (by omega) (Nat.le_refl _)

theorem skipNewlines_nomove {st : PState} (h : ¬ st.curToken.kind = .NEWLINE) :
    skipNewlines st = .ok st := by
  unfold skipNewlines
  cases hk : skipFuel st with
  | zero => rfl
  | succ k => rw [skipNewlinesAux, if_neg h]

theorem translateSt_eq (f : Nat) (s : String) :
    translateSt f s =
      match startRun (mkSource s) with
      | .error e => some (.error e)
      | .ok st2 => finishRun f st2 := by
  unfold translateSt startRun programF finishRun
  cases initState (mkSource s) with
  | error e => rfl
  | ok st =>
    cases skipNewlines (headerStart st) with
    | error e => rfl
    | ok st2 => rfl

theorem getToken_nl_run {n : Nat} (t : List Char) {p : Nat} (hp : p < n) :
    getToken (List.replicate n '\n' ++ t) p = .ok (⟨"\n", .NEWLINE⟩, p + 1) := by
  have hc : charAt (List.replicate n '\n' ++ t) p = '\n' := by
    unfold charAt
    rw [List.getD_append _ _ _ _ (by simpa using hp)]
    have : p < (List.replicate n '\n').length := by simpa using hp
    rw [List.getD_eq_getElem _ _ this]
    simp
  rw [getToken, skipWs_nomove (by rw [hc]; decide), skipCommentPhase_nomove (by rw [hc]; decide)]
  simp only [hc]
  rfl

theorem startRun_cons (src : List Char) :
    startRun ('\n' :: src) = (startRun src).map (shiftSt ['\n']) := by
  unfold startRun initState
  have hg0 : getToken ('\n' :: src) 0 = .ok (⟨"\n", .NEWLINE⟩, 1) :=
    @getToken_nl_run 1 src 0 (by omega)
  rw [hg0]
  simp only []
  cases hg1 : getToken src 0 with
  | error e =>
    have h1 : getToken ('\n' :: src) 1 = .error e := by
      have h := getToken_shift ['\n'] src 0
      rw [hg1] at h
      exact h
    rw [h1]
    rfl
  | ok tp =>
    obtain ⟨t1, p1⟩ := tp
    have h1 : getToken ('\n' :: src) 1 = .ok (t1, 1 + p1) := by
      have h := getToken_shift ['\n'] src 0
      rw [hg1] at h
      exact h
    rw [h1]
    simp only []
    cases hg2 : getToken src p1 with
    | error e =>
      have h2 : getToken ('\n' :: src) (1 + p1) = .error e := by
        have h := getToken_shift ['\n'] src p1
        rw [hg2] at h
        exact h
      rw [@skipNewlines_step (headerStart ⟨'\n' :: src, 1 + p1, ⟨"\n", .NEWLINE⟩, t1,
        [], [], [], "", ""⟩) rfl]
      have hnt : nextToken (headerStart ⟨'\n' :: src, 1 + p1, ⟨"\n", .NEWLINE⟩, t1,
          [], [], [], "", ""⟩) = .error e := by
        unfold nextToken
        simp only [headerStart, headerLine]
        rw [h2]
      rw [hnt]
      rfl
    | ok tq =>
      obtain ⟨t2, p2⟩ := tq
      have h2 : getToken ('\n' :: src) (1 + p1) = .ok (t2, 1 + p2) := by
        have h := getToken_shift ['\n'] src p1
        rw [hg2] at h
        exact h
      rw [@skipNewlines_step (headerStart ⟨'\n' :: src, 1 + p1, ⟨"\n", .NEWLINE⟩, t1,
        [], [], [], "", ""⟩) rfl]
      have hnt : nextToken (headerStart ⟨'\n' :: src, 1 + p1, ⟨"\n", .NEWLINE⟩, t1,
          [], [], [], "", ""⟩) =
          .ok (shiftSt ['\n'] (headerStart ⟨src, p2, t1, t2, [], [], [], "", ""⟩)) := by
        unfold nextToken
        simp only [headerStart, headerLine]
        rw [h2]
        rfl
      rw [hnt]
      exact skipNewlines_shift ['\n'] (headerStart ⟨src, p2, t1, t2, [], [], [], "", ""⟩)

theorem startRun_replicate : ∀ (n : Nat) (src : List Char),
    startRun (List.replicate n '\n' ++ src) =
      (startRun src).map (shiftSt (List.replicate n '\n')) := by
  intro n
  induction n with
  | zero =>
    intro src
    rw [show List.replicate 0 '\n' ++ src = src from rfl]
    cases startRun src with
    | error e => rfl
    | ok st =>
      show Except.ok st = Except.ok (shiftSt [] st)
      rw [shiftSt_nil]
  | succ n ih =>
    intro src
    have hrep : List.replicate (n + 1) '\n' ++ src = '\n' :: (List.replicate n '\n' ++ src) := by
      simp [List.replicate_succ]
    rw [hrep, startRun_cons, ih]
    cases startRun src with
    | error e => rfl
    | ok st =>
      simp only [Except.map]
      rw [shiftSt_append]
      rfl

theorem checkLabels_shift (l : List String) (a : List Char) (st : PState) :
    checkLabels l (shiftSt a st) = (checkLabels l st).map (shiftSt a) := by
  induction l generalizing st with
  | nil => rfl
  | cons x rest ih =>
    unfold checkLabels
    rw [shiftSt_labelsDeclared]
    split
    · exact ih st
    · rfl

theorem epilogue_shift (a : List Char) (st : PState) :
    epilogue (shiftSt a st) = shiftSt a (epilogue st) := rfl

theorem finishRun_shift (f : Nat) (a : List Char) (st : PState) :
    finishRun f (shiftSt a st) = shiftRes a (finishRun f st) := by
  unfold finishRun
  rw [(statement_loop_shift a f).2 .EOF st]
  refine obind_shiftRes a _ _ _ (fun st3 => ?_)
  rw [epilogue_shift, shiftSt_labelsGotoed, checkLabels_shift]
  cases checkLabels (epilogue st3).labelsGotoed (epilogue st3) with
  | error e => rfl
  | ok st4 => rfl

theorem finishRun_det {f1 f2 : Nat} {st : PState} {r1 r2 : Except String PState}
    (h1 : finishRun f1 st = some r1) (h2 : finishRun f2 st = some r2) : r1 = r2 := by
  unfold finishRun at h1 h2
  cases hl1 : loopUntilF f1 .EOF st with
  | none => rw [hl1] at h1; exact absurd h1 (by simp [obind])
  | some x1 =>
    cases hl2 : loopUntilF f2 .EOF st with
    | none => rw [hl2] at h2; exact absurd h2 (by simp [obind])
    | some x2 =>
      rw [hl1] at h1
      rw [hl2] at h2
      have hx : x1 = x2 := loopUntilF_det hl1 hl2
      subst hx
      rw [h1] at h2
      exact (Option.some.injEq _ _).mp h2

theorem renderOut_shift (a : List Char) (st : PState) :
    renderOut (shiftSt a st) = renderOut st := rfl

theorem mkSource_nlRun (n : Nat) (s : String) :
    mkSource (nlRun n ++ s) = List.replicate n '\n' ++ mkSource s := by
  unfold mkSource nlRun
  rw [String.data_append]
  simp [List.append_assoc]

theorem translateF_nl_invariant {n : Nat} {s : String} {f1 f2 : Nat}
    {r1 r2 : Except String String}
    (h1 : translateF f1 (nlRun n ++ s) = some r1) (h2 : translateF f2 s = some r2) :
    r1 = r2 := by
  unfold translateF at h1 h2
  rw [translateSt_eq] at h1 h2
  rw [mkSource_nlRun, startRun_replicate] at h1
  cases hs : startRun (mkSource s) with
  | error e =>
    rw [hs] at h1 h2
    simp only [Except.map, Option.map] at h1 h2
    cases h1
    cases h2
    rfl
  | ok st2 =>
    rw [hs] at h1 h2
    simp only [Except.map] at h1
    simp only [] at h2
    rw [finishRun_shift] at h1
    cases hf1 : finishRun f1 st2 with
    | none => rw [hf1] at h1; exact absurd h1 (by simp [shiftRes])
    | some y1 =>
      cases hf2 : finishRun f2 st2 with
      | none => rw [hf2] at h2; exact absurd h2 (by simp)
      | some y2 =>
        rw [hf1] at h1
        rw [hf2] at h2
        have hy : y1 = y2 := finishRun_det hf1 hf2
        subst hy
        cases y1 with
        | error e =>
          simp only [shiftRes, Option.map, Except.map] at h1 h2
          cases h1
          cases h2
          rfl
        | ok stY =>
          simp only [shiftRes, Option.map, Except.map] at h1 h2
          cases h1
          cases h2
          exact congrArg Except.ok (renderOut_shift _ stY)

theorem addSet_self_mem (x : String) (l : List String) : x ∈ addSet x l := by
  unfold addSet
  split
  · assumption
  · simp

theorem addSet_subset (x : String) (l : List String) : l ⊆ addSet x l := by
  unfold addSet
  split
  · exact fun y hy => hy
  · exact fun y hy => List.mem_append_left _ hy

theorem nextToken_fields {st st' : PState} (h : nextToken st = .ok st') :
    st'.symbols = st.symbols ∧ st'.labelsDeclared = st.labelsDeclared ∧
      st'.labelsGotoed = st.labelsGotoed ∧ st'.curToken = st.peekToken := by
  unfold nextToken at h
  cases hg : getToken st.src st.pos with
  | error e => rw [hg] at h; exact Except.noConfusion h
  | ok tp =>
    rw [hg] at h
    cases h
    exact ⟨rfl, rfl, rfl, rfl⟩

theorem matchKind_sets {k : TokenType} {st st' : PState} (h : matchKind k st = .ok st') :
    st'.symbols = st.symbols ∧ st'.labelsDeclared = st.labelsDeclared ∧
      st'.labelsGotoed = st.labelsGotoed := by
  unfold matchKind at h
  split at h
  · obtain ⟨h1, h2, h3, _⟩ := nextToken_fields h
    exact ⟨h1, h2, h3⟩
  · exact Except.noConfusion h

theorem skipNewlinesAux_sets : ∀ {k : Nat} {st st' : PState},
    skipNewlinesAux k st = .ok st' →
    st'.symbols = st.symbols ∧ st'.labelsDeclared = st.labelsDeclared ∧
      st'.labelsGotoed = st.labelsGotoed := by
  intro k
  induction k with
  | zero =>
    intro st st' h
    cases h
    exact ⟨rfl, rfl, rfl⟩
  | succ k ih =>
    intro st st' h
    rw [skipNewlinesAux] at h
    split at h
    · cases hn : nextToken st with
      | error e => rw [hn] at h; exact Except.noConfusion h
      | ok st2 =>
        rw [hn] at h
        obtain ⟨a1, a2, a3, _⟩ := nextToken_fields hn
        obtain ⟨b1, b2, b3⟩ := ih h
        exact ⟨b1.trans a1, b2.trans a2, b3.trans a3⟩
    · cases h
      exact ⟨rfl, rfl, rfl⟩

theorem nlF_sets {st st' : PState} (h : nlF st = .ok st') :
    st'.symbols = st.symbols ∧ st'.labelsDeclared = st.labelsDeclared ∧
      st'.labelsGotoed = st.labelsGotoed := by
  unfold nlF at h
  cases hm : matchKind .NEWLINE st with
  | error e => rw [hm] at h; exact Except.noConfusion h
  | ok st2 =>
    rw [hm] at h
    obtain ⟨a1, a2, a3⟩ := matchKind_sets hm
    obtain ⟨b1, b2, b3⟩ := skipNewlinesAux_sets h
    exact ⟨b1.trans a1, b2.trans a2, b3.trans a3⟩

theorem checkLabels_ok : ∀ {l : List String} {st st' : PState},
    checkLabels l st = .ok st' → st' = st ∧ ∀ x ∈ l, x ∈ st.labelsDeclared := by
  intro l
  induction l with
  | nil =>
    intro st st' h
    cases h
    exact ⟨rfl, by simp⟩
  | cons x rest ih =>
    intro st st' h
    rw [checkLabels] at h
    split at h
    · obtain ⟨he, hall⟩ := ih h
      refine ⟨he, fun y hy => ?_⟩
      rcases List.mem_cons.mp hy with hy | hy
      · subst hy; assumption
      · exact hall y hy
    · exact Except.noConfusion h

theorem translateSt_subset {f : Nat} {s : String} {st : PState}
    (h : translateSt f s = some (.ok st)) :
    ∀ l ∈ st.labelsGotoed, l ∈ st.labelsDeclared := by
  rw [translateSt_eq] at h
  cases hs : startRun (mkSource s) with
  | error e => rw [hs] at h; simp at h
  | ok st2 =>
    rw [hs] at h
    simp only [] at h
    unfold finishRun at h
    cases hl : loopUntilF f .EOF st2 with
    | none => rw [hl] at h; simp [obind] at h
    | some x =>
      rw [hl] at h
      cases x with
      | error e => simp [obind] at h
      | ok st3 =>
        simp only [obind] at h
        have hc := Option.some.inj h
        obtain ⟨he, hall⟩ := checkLabels_ok hc
        subst he
        exact hall

theorem statementF_goto_adds {f : Nat} {st st' : PState} (hG : st.curToken.kind = .GOTO)
    (h : statementF f st = some (.ok st')) :
    st.peekToken.text ∈ st'.labelsGotoed := by
  cases f with
  | zero => exact absurd h (by simp [statementF])
  | succ k =>
    rw [statementF] at h
    rw [hG] at h
    rw [if_neg (by decide), if_neg (by decide), if_neg (by decide), if_neg (by decide),
      if_pos rfl] at h
    cases hn : nextToken st with
    | error e => rw [hn] at h; simp [obind] at h
    | ok st2 =>
      rw [hn] at h
      simp only [] at h
      cases hm : matchKind .IDENT (emitLine ("goto " ++ st2.curToken.text ++ ";")
          { st2 with labelsGotoed := addSet st2.curToken.text st2.labelsGotoed }) with
      | error e => rw [hm] at h; simp [obind] at h
      | ok st3 =>
        rw [hm] at h
        simp only [obind] at h
        have hnl := Option.some.inj h
        obtain ⟨_, _, g3⟩ := nlF_sets hnl
        obtain ⟨_, _, m3⟩ := matchKind_sets hm
        obtain ⟨_, _, n3, n4⟩ := nextToken_fields hn
        rw [g3, m3]
        show st.peekToken.text ∈ addSet st2.curToken.text st2.labelsGotoed
        rw [n4]
        exact addSet_self_mem _ _

theorem stringEndAux_illegal {src : List Char} : ∀ (k p : Nat), k = src.length - p →
    (∀ j, j < src.length → p ≤ j → charAt src j ≠ '\"') →
    (∃ j, p ≤ j ∧ j < src.length ∧ illegalInString (charAt src j) = true) →
    stringEndAux src k p = .error "Lexing Error. Illegal character in string." := by
  intro k
  induction k with
  | zero =>
    intro p hk _ hex
    obtain ⟨j, hpj, hjl, _⟩ := hex
    omega
  | succ k ih =>
    intro p hk hnq hex
    have hp : p < src.length := by
      obtain ⟨j, hpj, hjl, _⟩ := hex
      omega
    rw [stringEndAux, if_neg (hnq p hp (Nat.le_refl p))]
    by_cases hill : illegalInString (charAt src p) = true
    · rw [if_pos hill]
    · rw [if_neg hill]
      refine ih (p + 1) (by omega) (fun j hjl hpj => hnq j hjl (by omega)) ?_
      obtain ⟨j, hpj, hjl, hj⟩ := hex
      have hne : j ≠ p := by
        intro he
        subst he
        exact hill hj
      exact ⟨j, by omega, hjl, hj⟩

theorem mkSource_last (s : String) :
    charAt (mkSource s) ((mkSource s).length - 1) = '\n' := by
  unfold mkSource charAt
  rw [List.length_append]
  simp only [List.length_cons, List.length_nil]
  rw [show s.data.length + (0 + 1) - 1 = s.data.length by omega,
    List.getD_append_right _ _ _ _ (Nat.le_refl _), Nat.sub_self]
  rfl

/-- Helper for C4 (not settled in Lean): the exact guard text the translator
emits for `INPUT x` — zero-reset plus a `scanf("%*s")` discard.  Whether that
discard consumes the whole rest of the input line is a fact about the C
runtime, outside this embedding. -/
theorem c4_input_guard_emitted_text :
    translateOut "INPUT x\nPRINT x\n" =
      .ok ("#include <stdio.h>\nint main(void)\x7b\nfloat x;\n" ++
        "if(0==scanf(\"%f\", &x)) \x7b\nx = 0;\nscanf(\"%*s\");\n\x7d\n" ++
        "printf(\"%.2f\\n\", (float)(x));\nreturn 0;\n\x7d\n") := rfl

/-- C1 (counterexample): the program `LET x = x` is accepted and translated,
although the identifier `x` has no `LET` or `INPUT` declaration strictly
earlier in source order — its first expression use is in the same statement
as its own declaration.  `Parser.statement` inserts the `LET` target into
`symbols` before parsing the right-hand side, so `Parser.primary` finds it. -/
theorem c1_let_self_reference_counterexample :
    translateOut "LET x = x\n" =
      .ok "#include <stdio.h>\nint main(void)\x7b\nfloat x;\nx = x;\nreturn 0;\n\x7d\n" := rfl

/-- C1 (amended): define-before-use as the code enforces it.  An identifier
accepted by `Parser.primary` inside an expression must already be in
`symbols` (an undeclared identifier is an immediate fatal error), and
`symbols` receives a name exactly when a `LET`/`INPUT` target is declared by
`declareVar` — which runs before the `LET` right-hand side is parsed, so the
declaration site is at or before every use, possibly the same statement. -/
theorem c1_define_before_use_amended :
    (∀ st : PState, st.curToken.kind = .IDENT → st.curToken.text ∉ st.symbols →
      primaryF st = .error ("Error. Referencing variable before assignment: " ++
        st.curToken.text)) ∧
    (∀ st : PState, st.curToken.text ∈ (declareVar st).symbols) ∧
    (∀ st : PState, st.symbols ⊆ (declareVar st).symbols) := by
  refine ⟨fun st hk hmem => ?_, fun st => ?_, fun st => ?_⟩
  · unfold primaryF
    rw [hk]
    rw [if_neg (by decide), if_pos rfl, if_neg hmem]
  · unfold declareVar
    by_cases hm : st.curToken.text ∈ st.symbols
    · rw [if_pos hm]
      exact hm
    · rw [if_neg hm]
      exact addSet_self_mem _ _
  · unfold declareVar
    by_cases hm : st.curToken.text ∈ st.symbols
    · rw [if_pos hm]
      exact fun y hy => hy
    · rw [if_neg hm]
      exact addSet_subset _ _

/-- C1 (witness): the amended theorem applied at concrete states. -/
theorem c1_define_before_use_witness :
    primaryF (PState.mk ['\n'] 0 ⟨"y", .IDENT⟩ ⟨"\n", .NEWLINE⟩ [] [] [] "" "") =
      .error "Error. Referencing variable before assignment: y" ∧
    "y" ∈ (declareVar (PState.mk ['\n'] 0 ⟨"y", .IDENT⟩ ⟨"\n", .NEWLINE⟩ [] [] [] "" "")).symbols ∧
    (PState.mk ['\n'] 0 ⟨"y", .IDENT⟩ ⟨"\n", .NEWLINE⟩ [] [] [] "" "").symbols ⊆
      (declareVar (PState.mk ['\n'] 0 ⟨"y", .IDENT⟩ ⟨"\n", .NEWLINE⟩ [] [] [] "" "")).symbols :=
  ⟨c1_define_before_use_amended.1 _ rfl (by decide),
   c1_define_before_use_amended.2.1 _,
   c1_define_before_use_amended.2.2 _⟩

/-- C2: dangling-goto detection is deferred and complete.  (a) Every run that
completes leaves `labelsGotoed ⊆ labelsDeclared` (the deferred check of
`Parser.program` passed).  (b) A successful `GOTO name` statement records
`name` in `labelsGotoed` — the statement itself performs no existence check.
(c) On `GOTO foo` with no `LABEL foo`, the whole statement list is consumed
without error (no failure at the `GOTO` itself), and (d) the run then fails
with the fatal error naming the label, raised by the end-of-program check. -/
theorem c2_dangling_goto_deferred :
    (∀ (f : Nat) (s : String) (st : PState), translateSt f s = some (.ok st) →
      ∀ l ∈ st.labelsGotoed, l ∈ st.labelsDeclared) ∧
    (∀ (f : Nat) (st st' : PState), st.curToken.kind = .GOTO →
      statementF f st = some (.ok st') → st.peekToken.text ∈ st'.labelsGotoed) ∧
    (∃ st2 st3 : PState, startRun (mkSource "GOTO foo\n") = .ok st2 ∧
      loopUntilF 8 .EOF st2 = some (.ok st3)) ∧
    translateOut "GOTO foo\n" = .error "Error. Attempting to GOTO to an undeclared label: foo" :=
  ⟨fun _ _ _ h => translateSt_subset h,
   fun _ _ _ hG h => statementF_goto_adds hG h,
   ⟨_, _, rfl, rfl⟩,
   rfl⟩

/-- C2 (witness): the theorem applied to the accepted program
`LABEL a` / `GOTO a` and to the statement phase of `GOTO foo`. -/
theorem c2_dangling_goto_witness :
    (∃ st : PState, translateSt 64 "LABEL a\nGOTO a\n" = some (.ok st) ∧
      ∀ l ∈ st.labelsGotoed, l ∈ st.labelsDeclared) ∧
    (∃ st2 st' : PState, startRun (mkSource "GOTO foo\n") = .ok st2 ∧
      statementF 8 st2 = some (.ok st') ∧ st2.peekToken.text ∈ st'.labelsGotoed) := by
  constructor
  · refine ⟨_, rfl, ?_⟩
    exact c2_dangling_goto_deferred.1 64 "LABEL a\nGOTO a\n" _ rfl
  · refine ⟨_, _, rfl, rfl, ?_⟩
    exact c2_dangling_goto_deferred.2.1 8 _ _ rfl rfl

/-- C3: a duplicate `LABEL x` fails immediately at that statement.  When the
current token is `LABEL` and the name that follows is already in
`labelsDeclared`, `Parser.statement` itself returns the fatal
duplicate-label error — and on `LABEL a` / `LABEL a` / `@` the run reports
exactly that error, although a later lexical error (`@`) was never even
reached, so the check is not deferred to the end of the program. -/
theorem c3_duplicate_label_immediate :
    (∀ (f : Nat) (st st2 : PState), st.curToken.kind = .LABEL → nextToken st = .ok st2 →
      st2.curToken.text ∈ st2.labelsDeclared →
      statementF (f + 1) st =
        some (.error ("Error. Label already exists: " ++ st2.curToken.text))) ∧
    translateOut "LABEL a\nLABEL a\n@\n" = .error "Error. Label already exists: a" := by
  refine ⟨fun f st st2 hL hn hmem => ?_, rfl⟩
  rw [statementF]
  rw [hL]
  rw [if_neg (by decide), if_neg (by decide), if_neg (by decide), if_pos rfl]
  rw [hn]
  simp only []
  rw [if_pos hmem]
  rfl

/-- C3 (witness): the theorem applied at a concrete duplicate-label state. -/
theorem c3_duplicate_label_witness :
    statementF 4 (PState.mk ['b', '\n'] 0 ⟨"LABEL", .LABEL⟩ ⟨"b", .IDENT⟩
        [] ["b"] [] "" "") =
      some (.error "Error. Label already exists: b") :=
  c3_duplicate_label_immediate.1 3
    (PState.mk ['b', '\n'] 0 ⟨"LABEL", .LABEL⟩ ⟨"b", .IDENT⟩ [] ["b"] [] "" "")
    (PState.mk ['b', '\n'] 1 ⟨"b", .IDENT⟩ ⟨"b", .IDENT⟩ [] ["b"] [] "" "")
    rfl rfl (by decide)

/-- C5 (counterexample): translating `LET x = 1 + 2 * 3` does not reproduce
the source text `1 + 2 * 3` verbatim — the emitter receives the token
spellings with no whitespace between them, so the character sequence
`1 + 2 * 3` occurs nowhere in the output (the assignment reads `x = 1+2*3;`). -/
theorem c5_let_expression_counterexample :
    translateOut "LET x = 1 + 2 * 3\n" =
      .ok "#include <stdio.h>\nint main(void)\x7b\nfloat x;\nx = 1+2*3;\nreturn 0;\n\x7d\n" ∧
    ¬ ("1 + 2 * 3".data <:+:
      ("#include <stdio.h>\nint main(void)\x7b\nfloat x;\nx = 1+2*3;\nreturn 0;\n\x7d\n").data) :=
  ⟨rfl, by decide⟩

/-- C5 (amended): translating `LET x = 1 + 2 * 3` produces exactly one
preamble declaration for `x`, and a body assignment whose right-hand
fragment is the expression's tokens in source order with no added
parentheses — `1+2*3`, the source tokens verbatim but without the
inter-token whitespace, relying on the target grammar's native precedence. -/
theorem c5_let_expression_amended :
    translateOut "LET x = 1 + 2 * 3\n" =
      .ok "#include <stdio.h>\nint main(void)\x7b\nfloat x;\nx = 1+2*3;\nreturn 0;\n\x7d\n" ∧
    ("float x;\n".data <:+:
      ("#include <stdio.h>\nint main(void)\x7b\nfloat x;\nx = 1+2*3;\nreturn 0;\n\x7d\n").data) ∧
    ("x = 1+2*3;\n".data <:+:
      ("#include <stdio.h>\nint main(void)\x7b\nfloat x;\nx = 1+2*3;\nreturn 0;\n\x7d\n").data) :=
  ⟨rfl, by decide, by decide⟩

/-- C6 (counterexample): the end-of-input token is not absorbing for every
scanner state that has produced one.  The buffer built from the source
`"\x00+"` (an embedded NUL character) makes `Lexer.getToken` return the EOF
token at position 0 — the current character equals the `'\x00'` sentinel —
and the very next call returns a PLUS token, not EOF. -/
theorem c6_embedded_nul_counterexample :
    mkSource "\x00+" = ['\x00', '+', '\n'] ∧
    getToken ['\x00', '+', '\n'] 0 = .ok (⟨"\x00", .EOF⟩, 1) ∧
    getToken ['\x00', '+', '\n'] 1 = .ok (⟨"+", .PLUS⟩, 2) :=
  ⟨rfl, rfl, rfl⟩

/-- C6 (amended): one token per call in source order, and end-of-input is
absorbing once the cursor passes the buffer end.  Every call at or past the
end returns the EOF token and advances the cursor, so EOF repeats forever;
and for a buffer with no embedded NUL character, every successful call
advances the cursor, and a call that produces the EOF token leaves the
cursor past the end — after which every later call returns EOF again. -/
theorem c6_eof_absorbing_amended :
    (∀ (src : List Char) (pos : Nat), src.length ≤ pos →
      getToken src pos = .ok (⟨"\x00", .EOF⟩, pos + 1)) ∧
    (∀ (src : List Char) (pos : Nat) (t : Token) (q : Nat), '\x00' ∉ src →
      getToken src pos = .ok (t, q) → pos < q ∧ (t.kind = .EOF → src.length < q)) := by
  refine ⟨fun src pos h => getToken_at_end h, fun src pos t q hnul h => ?_⟩
  obtain ⟨hlt, heof⟩ := getToken_walk h
  refine ⟨hlt, fun hk => ?_⟩
  have hc := heof hk
  by_cases hin : q - 1 < src.length
  · exfalso
    rw [charAt, List.getD_eq_getElem _ _ hin] at hc
    exact hnul (hc ▸ List.getElem_mem hin)
  · omega

/-- C6 (witness): the amended theorem applied at concrete calls. -/
theorem c6_eof_absorbing_witness :
    getToken ['+'] 3 = .ok (⟨"\x00", .EOF⟩, 4) ∧
    (0 < 1 ∧ ((⟨"+", .PLUS⟩ : Token).kind = .EOF → ([('+' : Char)] : List Char).length < 1)) :=
  ⟨c6_eof_absorbing_amended.1 ['+'] 3 (by decide),
   c6_eof_absorbing_amended.2 ['+'] 0 ⟨"+", .PLUS⟩ 1 (by decide) rfl⟩

/-- C7 (counterexample): an input containing the character sequence `12.`
with no digit after the decimal point is not always rejected — inside a
string literal the scanner never reads it as a number, so
`PRINT "12."` translates successfully and produces output. -/
theorem c7_string_context_counterexample :
    ("12.".data <:+: ("PRINT \"12.\"\n").data) ∧
    translateOut "PRINT \"12.\"\n" =
      .ok "#include <stdio.h>\nint main(void)\x7b\nprintf(\"12.\\n\");\nreturn 0;\n\x7d\n" :=
  ⟨by decide, rfl⟩

/-- C7 (amended): whenever the scanner opens a numeric literal (the current
character is a digit) and the digit run is followed by a decimal point with
no digit after it, `Lexer.getToken` fails with the malformed-number lexical
error; and a run on `LET x = 12.` fails with exactly that error, yielding no
translated output. -/
theorem c7_malformed_number_amended :
    (∀ (src : List Char) (pos : Nat), (charAt src pos).isDigit = true →
      charAt src (scanDigits src pos + 1) = '.' →
      ¬ (charAt src (scanDigits src pos + 2)).isDigit = true →
      getToken src pos = .error "Lexing Error. Illegal character in number.") ∧
    translateOut "LET x = 12.\n" = .error "Lexing Error. Illegal character in number." := by
  refine ⟨fun src pos hd hdot hnd => ?_, rfl⟩
  have hws : ¬ isWsChar (charAt src pos) = true := by
    intro hw
    unfold isWsChar at hw
    simp only [Bool.or_eq_true, decide_eq_true_eq] at hw
    rcases hw with (hc | hc) | hc <;> rw [hc] at hd <;> exact absurd hd (by decide)
  have hnotc : ∀ c : Char, ¬ c.isDigit = true → ¬ charAt src pos = c := by
    intro c hc he
    rw [he] at hd
    exact hc hd
  rw [getToken, skipWs_nomove hws,
    skipCommentPhase_nomove (hnotc '#' (by decide))]
  simp only []
  rw [if_neg (hnotc '+' (by decide)), if_neg (hnotc '-' (by decide)),
    if_neg (hnotc '*' (by decide)), if_neg (hnotc '/' (by decide)),
    if_neg (hnotc '\n' (by decide)), if_neg (hnotc '=' (by decide)),
    if_neg (hnotc '>' (by decide)), if_neg (hnotc '<' (by decide)),
    if_neg (hnotc '!' (by decide)), if_neg (hnotc '\"' (by decide)),
    if_pos hd, if_pos hdot, if_pos hnd]

/-- C7 (witness): the amended theorem applied to the buffer of `12.`. -/
theorem c7_malformed_number_witness :
    getToken ['1', '2', '.', '\n'] 0 = .error "Lexing Error. Illegal character in number." :=
  c7_malformed_number_amended.1 ['1', '2', '.', '\n'] 0 (by decide) (by decide) (by decide)

/-- C8: translating `PRINT "HI"` emits a literal-text write of `HI`: the
printf line holds the literal text plus the `\n` line terminator and
nothing else beyond the delimiters, and the output contains no
two-decimal format and no float coercion (those appear only for
`PRINT` of an expression). -/
theorem c8_print_string_literal :
    translateOut "PRINT \"HI\"\n" =
      .ok "#include <stdio.h>\nint main(void)\x7b\nprintf(\"HI\\n\");\nreturn 0;\n\x7d\n" ∧
    ("printf(\"HI\\n\");\n".data <:+:
      ("#include <stdio.h>\nint main(void)\x7b\nprintf(\"HI\\n\");\nreturn 0;\n\x7d\n").data) ∧
    ¬ ("%.2f".data <:+:
      ("#include <stdio.h>\nint main(void)\x7b\nprintf(\"HI\\n\");\nreturn 0;\n\x7d\n").data) ∧
    ¬ ("(float)".data <:+:
      ("#include <stdio.h>\nint main(void)\x7b\nprintf(\"HI\\n\");\nreturn 0;\n\x7d\n").data) :=
  ⟨rfl, by decide, by decide, by decide⟩

/-- C9: scanning a string literal whose opening quote is never matched
terminates with the in-string lexical error.  The buffer `Lexer.__init__`
builds always ends with an appended newline; when no closing quote follows
the opening one, the string scan reaches an illegal character (at the latest
that final newline) inside the literal and aborts with
`Illegal character in string.` — it never runs past the end of the buffer. -/
theorem c9_unterminated_string :
    ∀ (s : String) (pos : Nat), charAt (mkSource s) pos = '\"' →
      (∀ j, j < (mkSource s).length → pos < j → charAt (mkSource s) j ≠ '\"') →
      getToken (mkSource s) pos = .error "Lexing Error. Illegal character in string." := by
  intro s pos hq hnoq
  have hlen : pos < (mkSource s).length := by
    by_contra hge
    rw [charAt_oob (Nat.le_of_not_lt hge)] at hq
    exact absurd hq (by decide)
  have hlast := mkSource_last s
  have hlpos : 1 ≤ (mkSource s).length := by
    unfold mkSource
    rw [List.length_append]
    simp
  have hne : pos ≠ (mkSource s).length - 1 := by
    intro he
    rw [he, hlast] at hq
    exact absurd hq (by decide)
  rw [getToken, skipWs_nomove (by rw [hq]; decide),
    skipCommentPhase_nomove (by rw [hq]; decide)]
  simp only [hq]
  rw [if_neg (by decide), if_neg (by decide), if_neg (by decide), if_neg (by decide),
    if_neg (by decide), if_neg (by decide), if_neg (by decide), if_neg (by decide),
    if_neg (by decide)]
  rw [if_pos trivial]
  rw [stringEndAux_illegal _ (pos + 1) rfl
    (fun j hjl hpj => hnoq j hjl (by omega))
    ⟨(mkSource s).length - 1, by omega, by omega, by rw [hlast]; decide⟩]

/-- C9 (witness): the theorem applied to the source `"ab` (an opening quote
with no closing quote). -/
theorem c9_unterminated_string_witness :
    getToken (mkSource "\"ab") 0 = .error "Lexing Error. Illegal character in string." :=
  c9_unterminated_string "\"ab" 0 (by decide) (by decide)

/-- C10: leading blank lines do not change a translation.  Whenever a run on
`nlRun n ++ s` (the source with `n` newline characters prepended) completes
with result `r1` and a run on `s` alone completes with result `r2` — under
any statement-level fuels — the two results are the same text (or the same
error); and concretely, translating `PRINT "HI"` behind two blank lines
yields exactly the output of translating it alone. -/
theorem c10_leading_newlines :
    (∀ (n : Nat) (s : String) (f1 f2 : Nat) (r1 r2 : Except String String),
      translateF f1 (nlRun n ++ s) = some r1 → translateF f2 s = some r2 → r1 = r2) ∧
    translateOut ("\n\nPRINT \"HI\"\n") = translateOut "PRINT \"HI\"\n" :=
  ⟨fun _ _ _ _ _ _ h1 h2 => translateF_nl_invariant h1 h2, rfl⟩

/-- C10 (witness): the theorem applied with two leading newlines before
`PRINT "HI"`. -/
theorem c10_leading_newlines_witness :
    ∃ r1 r2 : Except String String,
      translateF 200 (nlRun 2 ++ "PRINT \"HI\"\n") = some r1 ∧
      translateF 200 "PRINT \"HI\"\n" = some r2 ∧ r1 = r2 := by
  refine ⟨_, _, rfl, rfl, ?_⟩
  exact c10_leading_newlines.1 2 "PRINT \"HI\"\n" 200 200 _ _ rfl rfl
